import Mathlib

/-!
Shallow embedding of the declared-type resolution layer (type lowering) of
the mun compiler front end, translated from
`crates/mun_hir/src/ty/lower.rs`.

Pure data model: interned semantic types are represented structurally (the
interning table canonicalizes structurally equal shapes to one handle, so
structural equality of the embedded `Ty` values coincides with handle
identity in the source; the table itself is modelled separately for the
interning claims).  The salsa query database is modelled as an explicit
`Db` record of per-definition data, and the salsa query stack (which the
source accesses ambiently through the memoization engine) is threaded as
an explicit in-progress key list, following the spec's design note for
cycle detection.  Diagnostics, which the source pushes into a `&mut Vec`,
are returned as the list of records emitted by each call, in push order.
-/

/-- Primitive type kinds (`PrimitiveType` in the source): a boolean, or an
integer / float kind.  The concrete integer and float kinds are opaque here
and represented by a natural number tag. -/
inductive PrimitiveType
  | int (kind : Nat)
  | float (kind : Nat)
  | bool
deriving DecidableEq, Repr

/-- The shape of a struct (`StructKind` in the source). -/
inductive StructKind
  | record
  | tuple
  | unit
deriving DecidableEq, Repr

/-- The two namespaces a name can live in (`Namespace` in the source). -/
inductive Namespace
  | types
  | values
deriving DecidableEq, Repr

/-- Definitions that have a declared type (`TypableDef` in the source).
`Function`, `Struct` and `TypeAlias` identities are opaque stable ids,
represented as indices into the corresponding `Db` tables. -/
inductive TypableDef
  | function (f : Nat)
  | primitiveType (p : PrimitiveType)
  | struct (s : Nat)
  | typeAlias (t : Nat)
deriving DecidableEq, Repr

/-- Definitions with an invocable signature (`CallableDef` in the source). -/
inductive CallableDef
  | function (f : Nat)
  | struct (s : Nat)
deriving DecidableEq, Repr

/-- Semantic types (`TyKind` in the source).  `TyKind::intern` produces the
canonical handle of a shape; because interning is canonical, a handle is
represented by its shape.  `fnDef` carries the callable identity and its
type-argument substitution (always empty in this layer,
`Substitution::empty()`). -/
inductive Ty
  | unknown
  | never
  | bool
  | int (kind : Nat)
  | float (kind : Nat)
  | tuple (arity : Nat) (elems : List Ty)
  | array (elem : Ty)
  | struct (s : Nat)
  | fnDef (d : CallableDef) (subst : List Ty)

mutual

/-- Structural (boolean) equality of semantic type shapes: the equality the
interning table uses to canonicalize shapes. -/
def Ty.beq : Ty → Ty → Bool
  | .unknown, .unknown => true
  | .never, .never => true
  | .bool, .bool => true
  | .int k, .int k2 => k == k2
  | .float k, .float k2 => k == k2
  | .tuple n xs, .tuple n2 ys => n == n2 && Ty.listBeq xs ys
  | .array x, .array y => Ty.beq x y
  | .struct s, .struct s2 => s == s2
  | .fnDef d xs, .fnDef d2 ys => d == d2 && Ty.listBeq xs ys
  | _, _ => false

/-- Elementwise structural equality of lists of semantic type shapes. -/
def Ty.listBeq : List Ty → List Ty → Bool
  | [], [] => true
  | x :: xs, y :: ys => Ty.beq x y && Ty.listBeq xs ys
  | _, _ => false

end

instance : BEq Ty := ⟨Ty.beq⟩

/-- Syntactic type references (`TypeRef` in the source).  Children are
per-item local reference ids (`LocalTypeRefId`), i.e. indices into the
item's reference arena. -/
inductive TypeRef
  | path (p : String)
  | tuple (children : List Nat)
  | array (child : Nat)
  | never
  | error
deriving DecidableEq, Repr

/-- The child reference ids of a syntactic type reference. -/
def TypeRef.childRefs : TypeRef → List Nat
  | .path _ => []
  | .tuple cs => cs
  | .array c => [c]
  | .never => []
  | .error => []

/-- Entries of the type namespace returned by the name resolver
(`TypeNs` in the source). -/
inductive TypeNs
  | structId (s : Nat)
  | typeAliasId (t : Nat)
  | primitiveType (p : PrimitiveType)
deriving DecidableEq, Repr

/-- Modelled from the spec: visibility of a namespace entry.  The real
`Visibility` type and `is_visible_from` live outside this repository's
sources; the spec only requires deciding whether an entry is visible from
the enclosing module, so an entry is either public or restricted to a
single module. -/
inductive Visibility
  | pub
  | inModule (m : Nat)
deriving DecidableEq, Repr

/-- Modelled from the spec: `vis.is_visible_from(db, module)`. -/
def Visibility.is_visible_from : Visibility → Nat → Bool
  | .pub, _ => true
  | .inModule m2, m => m2 == m

/-- Modelled from the spec: the name resolver boundary.  The source's
`Resolver` is external; the spec specifies the consumed contract
`resolveTypePath(path) -> Option<(NamespaceEntry, Visibility)>` scoped to
the calling item's module.  It is modelled as a finite table from paths to
entries, together with the resolver's current module. -/
structure Resolver where
  entries : List (String × TypeNs × Visibility)
  mod : Option Nat
deriving DecidableEq, Repr, Inhabited

/-- `resolver.resolve_path_as_type_fully(db, path)` of the source's
resolver contract. -/
def Resolver.resolve_path_as_type_fully (r : Resolver) (path : String) :
    Option (TypeNs × Visibility) :=
  (r.entries.find? (fun e => e.1 == path)).map (fun e => e.2)

/-- `resolver.module()` of the source's resolver contract. -/
def Resolver.module (r : Resolver) : Option Nat := r.mod

/-- Diagnostic records produced while lowering (`LowerDiagnostic` in the
source), each keyed by the local reference id that triggered it. -/
inductive LowerDiagnostic
  | unresolvedType (id : Nat)
  | typeIsPrivate (id : Nat)
  | cyclicType (id : Nat)
deriving DecidableEq, Repr

/-- Per-alias data consumed from the query database: the alias's own
reference arena, the local id of its right-hand-side reference
(`def.type_ref(db)`), and its lexical resolver. -/
structure AliasData where
  type_ref_map : List TypeRef
  type_ref : Nat
  resolver : Resolver
deriving DecidableEq, Repr, Inhabited

/-- Per-function data consumed from the query database: the function's
reference arena, its parameter reference ids in declaration order, its
return-type reference id, and its lexical resolver. -/
structure FunctionData where
  type_ref_map : List TypeRef
  params : List Nat
  ret_type : Nat
  resolver : Resolver
deriving DecidableEq, Repr, Inhabited

/-- Per-struct data consumed from the query database: the struct's shape,
its fields' declared type reference ids in field-declaration order, its
reference arena and its lexical resolver. -/
structure StructData where
  kind : StructKind
  fields : List Nat
  type_ref_map : List TypeRef
  resolver : Resolver
deriving DecidableEq, Repr

instance : Inhabited StructData := ⟨⟨StructKind.record, [], [], default⟩⟩

/-- Modelled from the spec: the query database boundary (`HirDatabase`).
Per-definition data accessors are modelled as finite tables indexed by the
definition ids. -/
structure Db where
  aliases : List AliasData
  functions : List FunctionData
  structs : List StructData
deriving DecidableEq, Repr

/-- `db.struct_data(id)` accessor. -/
def Db.struct_data (db : Db) (s : Nat) : StructData :=
  db.structs.getD s default

/-- `TypeAlias::data(db)` accessor. -/
def Db.alias_data (db : Db) (t : Nat) : AliasData :=
  db.aliases.getD t default

/-- `Function::data(db)` accessor. -/
def Db.function_data (db : Db) (f : Nat) : FunctionData :=
  db.functions.getD f default

/-- A syntactic reference arena is well formed when every child reference
id is strictly smaller than its parent's id: the arena mirrors finite
source text and is built bottom-up, so nesting recursion is bounded by the
arena itself (spec section 4.2). -/
def arenaWF (m : List TypeRef) : Bool :=
  (List.range m.length).all fun i =>
    ((m.getD i TypeRef.error).childRefs).all fun c => c < i

/-- A resolver is well formed with respect to a database holding `a`
type aliases when every alias id it can resolve to refers to an actual
alias declaration. -/
def resolverWF (a : Nat) (r : Resolver) : Bool :=
  r.entries.all fun e =>
    match e.2.1 with
    | TypeNs.typeAliasId t => t < a
    | _ => true

/-- A database is well formed when every stored arena is well formed and
every stored resolver only resolves to actual alias declarations. -/
def dbWF (db : Db) : Bool :=
  (db.aliases.all fun d =>
    arenaWF d.type_ref_map && resolverWF db.aliases.length d.resolver) &&
  (db.functions.all fun d =>
    arenaWF d.type_ref_map && resolverWF db.aliases.length d.resolver) &&
  (db.structs.all fun d =>
    arenaWF d.type_ref_map && resolverWF db.aliases.length d.resolver)

/-- Keys of the declared-type query: a `(definition, namespace)` pair
(spec sections 4.4 and 9). -/
abbrev QueryKey := TypableDef × Namespace

/-- The declared-type query key of a type alias. -/
def aliasKey (t : Nat) : QueryKey := (TypableDef.typeAlias t, Namespace.types)

/-- The number of alias declarations of `db` whose declared-type query is
not currently in progress: the termination measure for alias expansion. -/
def freeAliases (db : Db) (stack : List QueryKey) : Nat :=
  ((List.range db.aliases.length).filter fun t =>
    decide (aliasKey t ∉ stack)).length

/-- `type_for_cycle_recover`: the recovery function registered with the
incremental engine; when a chain of declared-type queries re-enters a key
already being computed, every participant receives this sentinel. -/
def type_for_cycle_recover (_db : Db) (_cycle : List String) (_d : TypableDef)
    (_ns : Namespace) : Ty × Bool :=
  (Ty.unknown, true)

/-- `type_for_primitive`: the declared type of a primitive. -/
def type_for_primitive (d : PrimitiveType) : Ty :=
  match d with
  | PrimitiveType.float f => Ty.float f
  | PrimitiveType.int i => Ty.int i
  | PrimitiveType.bool => Ty.bool

/-- `type_for_fn`: the declared type of a function: its callable identity
with an empty substitution. -/
def type_for_fn (_db : Db) (d : Nat) : Ty :=
  Ty.fnDef (CallableDef.function d) []

/-- `type_for_struct`: the Types-namespace type of a struct. -/
def type_for_struct (_db : Db) (d : Nat) : Ty :=
  Ty.struct d

/-- `type_for_struct_constructor`: the Values-namespace type of a struct;
a tuple struct gets a synthesized constructor function, any other struct
shape gets the struct type itself. -/
def type_for_struct_constructor (db : Db) (d : Nat) : Ty :=
  let struct_data := db.struct_data d
  if struct_data.kind = StructKind.tuple then
    Ty.fnDef (CallableDef.struct d) []
  else
    type_for_struct db d

/-- The mapping from a resolved type-namespace entry to a `TypableDef`
(the inline `match` in `Ty::from_path`). -/
def defOfTypeNs : TypeNs → TypableDef
  | TypeNs.structId id => TypableDef.struct id
  | TypeNs.typeAliasId id => TypableDef.typeAlias id
  | TypeNs.primitiveType id => TypableDef.primitiveType id

/-- A definition id is meaningful for `db` when, if it is a type alias, it
refers to an actual alias declaration of `db`. -/
def TypableDefWF (db : Db) : TypableDef → Prop
  | TypableDef.typeAlias t => t < db.aliases.length
  | _ => True

/-- In a well-formed arena every child reference id is strictly below its
parent's id. -/
theorem arenaWF_child {m : List TypeRef} {i c : Nat} {r : TypeRef}
    (hm : arenaWF m = true) (hr : m.getD i TypeRef.error = r)
    (hc : c ∈ r.childRefs) : c < i := by
  by_cases hi : i < m.length
  · have h1 := (List.all_eq_true.mp hm) i (List.mem_range.mpr hi)
    rw [hr] at h1
    have h2 := (List.all_eq_true.mp h1) c hc
    exact of_decide_eq_true h2
  · have hd : m.getD i TypeRef.error = TypeRef.error :=
      List.getD_eq_default _ _ (by omega)
    rw [hd] at hr
    rw [← hr] at hc
    simp [TypeRef.childRefs] at hc

/-- A well-formed resolver only resolves to actual alias declarations. -/
theorem resolverWF_alias {a : Nat} {r : Resolver} {p : String} {t : Nat}
    {vis : Visibility} (hres : resolverWF a r = true)
    (hr : r.resolve_path_as_type_fully p = some (TypeNs.typeAliasId t, vis)) :
    t < a := by
  unfold Resolver.resolve_path_as_type_fully at hr
  rcases Option.map_eq_some'.mp hr with ⟨e, he, he2⟩
  have hmem := List.mem_of_find?_eq_some he
  have h1 := (List.all_eq_true.mp hres) e hmem
  rw [he2] at h1
  exact of_decide_eq_true h1

/-- The resolved `TypableDef` of a well-formed resolver's answer is
meaningful for the database. -/
theorem defOfTypeNs_wf {db : Db} {r : Resolver} {p : String} {tyns : TypeNs}
    {vis : Visibility} (hres : resolverWF db.aliases.length r = true)
    (hr : r.resolve_path_as_type_fully p = some (tyns, vis)) :
    TypableDefWF db (defOfTypeNs tyns) := by
  cases tyns with
  | structId id => trivial
  | typeAliasId id => exact resolverWF_alias hres hr
  | primitiveType id => trivial

/-- Every alias record of a well-formed database has a well-formed arena
and a well-formed resolver (out-of-range ids read the default record,
which is trivially well formed). -/
theorem dbWF_alias {db : Db} (hdb : dbWF db = true) (t : Nat) :
    arenaWF (db.alias_data t).type_ref_map = true ∧
    resolverWF db.aliases.length (db.alias_data t).resolver = true := by
  unfold dbWF at hdb
  rw [Bool.and_eq_true, Bool.and_eq_true] at hdb
  by_cases ht : t < db.aliases.length
  · have hmem : db.alias_data t ∈ db.aliases := by
      unfold Db.alias_data
      rw [List.getD_eq_getElem _ _ ht]
      exact List.getElem_mem ht
    have h1 := (List.all_eq_true.mp hdb.1.1) _ hmem
    rw [Bool.and_eq_true] at h1
    exact h1
  · have hd : db.alias_data t = default := by
      unfold Db.alias_data
      exact List.getD_eq_default _ _ (by omega)
    rw [hd]
    constructor <;> rfl

/-- Every function record of a well-formed database has a well-formed
arena and resolver. -/
theorem dbWF_function {db : Db} (hdb : dbWF db = true) (f : Nat) :
    arenaWF (db.function_data f).type_ref_map = true ∧
    resolverWF db.aliases.length (db.function_data f).resolver = true := by
  unfold dbWF at hdb
  rw [Bool.and_eq_true, Bool.and_eq_true] at hdb
  by_cases hf : f < db.functions.length
  · have hmem : db.function_data f ∈ db.functions := by
      unfold Db.function_data
      rw [List.getD_eq_getElem _ _ hf]
      exact List.getElem_mem hf
    have h1 := (List.all_eq_true.mp hdb.1.2) _ hmem
    rw [Bool.and_eq_true] at h1
    exact h1
  · have hd : db.function_data f = default := by
      unfold Db.function_data
      exact List.getD_eq_default _ _ (by omega)
    rw [hd]
    constructor <;> rfl

/-- Every struct record of a well-formed database has a well-formed arena
and resolver. -/
theorem dbWF_struct {db : Db} (hdb : dbWF db = true) (s : Nat) :
    arenaWF (db.struct_data s).type_ref_map = true ∧
    resolverWF db.aliases.length (db.struct_data s).resolver = true := by
  unfold dbWF at hdb
  rw [Bool.and_eq_true, Bool.and_eq_true] at hdb
  by_cases hs : s < db.structs.length
  · have hmem : db.struct_data s ∈ db.structs := by
      unfold Db.struct_data
      rw [List.getD_eq_getElem _ _ hs]
      exact List.getElem_mem hs
    have h1 := (List.all_eq_true.mp hdb.2) _ hmem
    rw [Bool.and_eq_true] at h1
    exact h1
  · have hd : db.struct_data s = default := by
      unfold Db.struct_data
      exact List.getD_eq_default _ _ (by omega)
    rw [hd]
    constructor <;> rfl

/-- Filtering with a stronger predicate keeps at most as many elements. -/
theorem length_filter_le_of_imp {α : Type} (l : List α) (p q : α → Bool)
    (himp : ∀ x, q x = true → p x = true) :
    (l.filter q).length ≤ (l.filter p).length := by
  induction l with
  | nil => simp
  | cons a as ih =>
      by_cases hq : q a = true
      · rw [List.filter_cons, List.filter_cons, hq, himp a hq]
        simpa using ih
      · rw [List.filter_cons, Bool.of_not_eq_true hq]
        rcases hp : p a with _ | _
        · rw [List.filter_cons, hp]
          simpa using ih
        · rw [List.filter_cons, hp]
          simp
          omega

/-- Filtering with a strictly stronger predicate (witnessed by an element
that the weaker predicate keeps and the stronger one drops) keeps strictly
fewer elements. -/
theorem length_filter_lt_of_witness {α : Type} (l : List α) (p q : α → Bool)
    (himp : ∀ x, q x = true → p x = true) (x : α) (hx : x ∈ l)
    (hp : p x = true) (hq : q x = false) :
    (l.filter q).length < (l.filter p).length := by
  induction l with
  | nil => simp at hx
  | cons a as ih =>
      rcases List.mem_cons.mp hx with heq | hmem
      · subst heq
        rw [List.filter_cons, List.filter_cons, hq, hp]
        simp
        exact Nat.lt_succ_of_le (length_filter_le_of_imp as p q himp)
      · have hle := ih hmem
        by_cases hqa : q a = true
        · rw [List.filter_cons, List.filter_cons, hqa, himp a hqa]
          simpa using hle
        · rw [List.filter_cons, Bool.of_not_eq_true hqa]
          rcases hpa : p a with _ | _
          · rw [List.filter_cons, hpa]
            simpa using hle
          · rw [List.filter_cons, hpa]
            simp
            omega

/-- Marking a fresh alias declaration as in progress strictly decreases
the number of free alias declarations: the key termination argument for
alias expansion. -/
theorem freeAliases_push {db : Db} {stack : List QueryKey} {t : Nat}
    (ht : t < db.aliases.length) (hmem : aliasKey t ∉ stack) :
    freeAliases db (aliasKey t :: stack) < freeAliases db stack := by
  refine length_filter_lt_of_witness _ _ _ ?himp t ?hx ?hp ?hq
  case himp =>
    intro x hx
    simp only [decide_eq_true_eq] at hx ⊢
    intro hcon
    exact hx (List.mem_cons_of_mem _ hcon)
  case hx => exact List.mem_range.mpr ht
  case hp => simp [hmem]
  case hq => simp


mutual

/-- `Ty::from_hir_with_diagnostics`: lower one syntactic type reference,
dispatching on its variant; returns the lowered type, the diagnostics the
call pushes (in push order), and — modelling apparatus for the external
engine — the in-progress keys whose re-entry was detected below this call
and not yet unwound past.  The proof arguments (`hdb`, `hres`, `hmap`) and
the explicit query `stack` stand for what the source obtains ambiently
from the memoizing engine. -/
def Ty.from_hir_with_diagnostics (db : Db) (hdb : dbWF db = true)
    (resolver : Resolver) (hres : resolverWF db.aliases.length resolver = true)
    (type_ref_map : List TypeRef) (hmap : arenaWF type_ref_map = true)
    (stack : List QueryKey) (type_ref : Nat) :
    Ty × List LowerDiagnostic × List QueryKey :=
  let res : Option ((Ty × Bool) × List LowerDiagnostic × List QueryKey) :=
    match hr : type_ref_map.getD type_ref TypeRef.error with
    | TypeRef.path p => Ty.from_path db hdb resolver hres stack type_ref p
    | TypeRef.error => some ((Ty.unknown, false), [], [])
    | TypeRef.tuple inner =>
        let r := Ty.from_hir_list db hdb resolver hres type_ref_map hmap stack
          type_ref inner (fun c hc => arenaWF_child hmap hr hc)
        some ((Ty.tuple inner.length r.1, false), r.2)
    | TypeRef.never => some ((Ty.never, false), [], [])
    | TypeRef.array inner =>
        let r := Ty.from_hir_with_diagnostics db hdb resolver hres type_ref_map
          hmap stack inner
        some ((Ty.array r.1, false), r.2)
  match res with
  | some ((ty, is_cyclic), ds, cyc) =>
      (ty, ds ++ (if is_cyclic then [LowerDiagnostic.cyclicType type_ref] else []),
        cyc)
  | none => (Ty.unknown, [LowerDiagnostic.unresolvedType type_ref], [])
termination_by (freeAliases db stack, type_ref, 3, 0)
decreasing_by
  · apply Prod.Lex.right
    apply Prod.Lex.right
    apply Prod.Lex.left
    omega
  · apply Prod.Lex.right
    apply Prod.Lex.right
    apply Prod.Lex.left
    omega
  · apply Prod.Lex.right
    apply Prod.Lex.left
    exact arenaWF_child hmap hr (by simp [TypeRef.childRefs])

/-- Lowering of a tuple reference's children, left to right (the
`inner.iter().map(...)` / `collect` in the source's tuple arm), collecting
the lowered types in order and concatenating diagnostics in push order. -/
def Ty.from_hir_list (db : Db) (hdb : dbWF db = true) (resolver : Resolver)
    (hres : resolverWF db.aliases.length resolver = true)
    (type_ref_map : List TypeRef) (hmap : arenaWF type_ref_map = true)
    (stack : List QueryKey) (parent : Nat) (refs : List Nat)
    (hrefs : ∀ c ∈ refs, c < parent) :
    List Ty × List LowerDiagnostic × List QueryKey :=
  match refs with
  | [] => ([], [], [])
  | c :: rest =>
      let r := Ty.from_hir_with_diagnostics db hdb resolver hres type_ref_map
        hmap stack c
      let rs := Ty.from_hir_list db hdb resolver hres type_ref_map hmap stack
        parent rest (fun x hx => hrefs x (List.mem_cons_of_mem _ hx))
      (r.1 :: rs.1, r.2.1 ++ rs.2.1, r.2.2 ++ rs.2.2)
termination_by (freeAliases db stack, parent, 2, refs.length)
decreasing_by
  · apply Prod.Lex.right
    apply Prod.Lex.left
    exact hrefs c (List.mem_cons_self c rest)
  · apply Prod.Lex.right
    apply Prod.Lex.right
    apply Prod.Lex.right
    simp

/-- `Ty::from_path`: resolve the path in the type namespace; `none` when
the resolver fails.  On success, map the entry to a `TypableDef`, push a
`TypeIsPrivate` diagnostic when the entry is not visible from the
enclosing module (non-fatally), and ask the declared-type query for the
entry's Types-namespace type. -/
def Ty.from_path (db : Db) (hdb : dbWF db = true) (resolver : Resolver)
    (hres : resolverWF db.aliases.length resolver = true)
    (stack : List QueryKey) (type_ref : Nat) (path : String) :
    Option ((Ty × Bool) × List LowerDiagnostic × List QueryKey) :=
  match hr : resolver.resolve_path_as_type_fully path with
  | none => none
  | some (tyns, vis) =>
      let d := defOfTypeNs tyns
      let ds : List LowerDiagnostic :=
        match resolver.module with
        | some module =>
            if !(vis.is_visible_from module) then
              [LowerDiagnostic.typeIsPrivate type_ref]
            else []
        | none => []
      let r := type_for_def_query db hdb stack d Namespace.types
        (defOfTypeNs_wf hres hr)
      some (r.1, ds, r.2)
termination_by (freeAliases db stack, type_ref, 1, 0)
decreasing_by
  · apply Prod.Lex.right
    rcases Nat.eq_zero_or_pos type_ref with h | h
    · subst h
      apply Prod.Lex.right
      apply Prod.Lex.left
      omega
    · apply Prod.Lex.left
      omega

/-- Modelled from the spec: `db.type_for_def(def, ns)` as seen through the
external memoizing engine (spec section 4.6 and design note 9): the query
stack is an explicit in-progress key list; re-entering a key already in
progress short-circuits with the `type_for_cycle_recover` sentinel, and a
key whose evaluation detected a not-yet-unwound re-entry below it is a
cycle participant and is replaced by the same `(Unknown, cyclic = true)`
sentinel, its own key being resolved from the pending set as the stack
unwinds past it. -/
def type_for_def_query (db : Db) (hdb : dbWF db = true) (stack : List QueryKey)
    (d : TypableDef) (ns : Namespace) (hd : TypableDefWF db d) :
    (Ty × Bool) × List QueryKey :=
  if hmem : (d, ns) ∈ stack then
    (type_for_cycle_recover db [] d ns, [(d, ns)])
  else
    let r := type_for_def db hdb stack d ns hd hmem
    if r.2.isEmpty then (r.1, [])
    else ((Ty.unknown, true), r.2.filter (fun k => decide (k ≠ (d, ns))))
termination_by (freeAliases db stack, 0, 0, 2)
decreasing_by
  · apply Prod.Lex.right
    apply Prod.Lex.right
    apply Prod.Lex.right
    omega

/-- `type_for_def`: the namespace-aware declared-type dispatch table.
Every arm reports `cyclic = false`; the `true` flag only ever originates
from the engine's recovery (`type_for_cycle_recover`). -/
def type_for_def (db : Db) (hdb : dbWF db = true) (stack : List QueryKey)
    (d : TypableDef) (ns : Namespace) (hd : TypableDefWF db d)
    (hmem : (d, ns) ∉ stack) : (Ty × Bool) × List QueryKey :=
  match d, ns, hd, hmem with
  | TypableDef.function f, Namespace.values, _, _ =>
      ((type_for_fn db f, false), [])
  | TypableDef.primitiveType t, Namespace.types, _, _ =>
      ((type_for_primitive t, false), [])
  | TypableDef.struct s, Namespace.values, _, _ =>
      ((type_for_struct_constructor db s, false), [])
  | TypableDef.struct s, Namespace.types, _, _ =>
      ((type_for_struct db s, false), [])
  | TypableDef.typeAlias t, Namespace.types, hd, hmem =>
      let r := type_for_type_alias db hdb stack t hd hmem
      ((r.1, false), r.2)
  | TypableDef.function _, Namespace.types, _, _ => ((Ty.unknown, false), [])
  | TypableDef.primitiveType _, Namespace.values, _, _ =>
      ((Ty.unknown, false), [])
  | TypableDef.typeAlias _, Namespace.values, _, _ => ((Ty.unknown, false), [])
termination_by (freeAliases db stack, 0, 0, 1)
decreasing_by
  · apply Prod.Lex.right
    apply Prod.Lex.right
    apply Prod.Lex.right
    omega

/-- `type_for_type_alias`: the declared type of a type alias is the
lowering of the alias's own right-hand-side reference in the alias's own
arena with the alias's own resolver; the diagnostics of that lowering are
discarded (`Ty::from_hir(...).0` in the source).  The alias's query key is
marked in progress for the duration (the engine's bookkeeping). -/
def type_for_type_alias (db : Db) (hdb : dbWF db = true)
    (stack : List QueryKey) (t : Nat) (ht : t < db.aliases.length)
    (hmem : aliasKey t ∉ stack) : Ty × List QueryKey :=
  let data := db.alias_data t
  let r := Ty.from_hir_with_diagnostics db hdb data.resolver
    (dbWF_alias hdb t).2 data.type_ref_map (dbWF_alias hdb t).1
    (aliasKey t :: stack) data.type_ref
  (r.1, r.2.2)
termination_by (freeAliases db stack, 0, 0, 0)
decreasing_by
  · apply Prod.Lex.left
    exact freeAliases_push ht hmem

end

/-- `Ty::from_hir`: lower a reference starting from a fresh diagnostics
vector (and, in this embedding, outside any in-progress declared-type
query), returning the type and the diagnostics encountered. -/
def Ty.from_hir (db : Db) (hdb : dbWF db = true) (resolver : Resolver)
    (hres : resolverWF db.aliases.length resolver = true)
    (type_ref_map : List TypeRef) (hmap : arenaWF type_ref_map = true)
    (type_ref : Nat) : Ty × List LowerDiagnostic :=
  let r := Ty.from_hir_with_diagnostics db hdb resolver hres type_ref_map hmap
    [] type_ref
  (r.1, r.2.1)

/-- `LowerTyMap`: resolved type references of one item (the arena map from
local reference id to type) plus the diagnostics produced while lowering
the item.  The arena map is an association list in insertion order. -/
structure LowerTyMap where
  type_ref_to_type : List (Nat × Ty)
  diagnostics : List LowerDiagnostic

/-- The `Index<LocalTypeRefId>` impl: indexing falls back to the interned
`Unknown` type for ids absent from the map (`unwrap_or(&self.unknown_ty)`). -/
def LowerTyMap.index (m : LowerTyMap) (expr : Nat) : Ty :=
  match m.type_ref_to_type.find? (fun p => p.1 == expr) with
  | some p => p.2
  | none => Ty.unknown

/-- `types_from_hir`: resolve every reference id owned by the item's arena
(all of them, in arena order), accumulating the per-id types and the
diagnostics of each lowering, in order. -/
def types_from_hir (db : Db) (hdb : dbWF db = true) (resolver : Resolver)
    (hres : resolverWF db.aliases.length resolver = true)
    (type_ref_map : List TypeRef) (hmap : arenaWF type_ref_map = true) :
    LowerTyMap :=
  (List.range type_ref_map.length).foldl
    (fun result id =>
      let r := Ty.from_hir_with_diagnostics db hdb resolver hres type_ref_map
        hmap [] id
      { type_ref_to_type := result.type_ref_to_type ++ [(id, r.1)],
        diagnostics := result.diagnostics ++ r.2.1 })
    ⟨[], []⟩

/-- `lower_struct_query`: the per-item lowering result of a struct. -/
def lower_struct_query (db : Db) (hdb : dbWF db = true) (s : Nat) :
    LowerTyMap :=
  let data := db.struct_data s
  types_from_hir db hdb data.resolver (dbWF_struct hdb s).2 data.type_ref_map
    (dbWF_struct hdb s).1

/-- `lower_type_alias_query`: the per-item lowering result of a type
alias. -/
def lower_type_alias_query (db : Db) (hdb : dbWF db = true) (t : Nat) :
    LowerTyMap :=
  let data := db.alias_data t
  types_from_hir db hdb data.resolver (dbWF_alias hdb t).2 data.type_ref_map
    (dbWF_alias hdb t).1

/-- `FnSig`: an ordered parameter-type list plus a return type
(`FnSig::from_params_and_return` stores exactly these). -/
structure FnSig where
  params : List Ty
  ret : Ty

/-- `FnSig::from_params_and_return`. -/
def FnSig.from_params_and_return (params : List Ty) (ret : Ty) : FnSig :=
  ⟨params, ret⟩

/-- `fn_sig_for_fn`: lower every declared parameter reference in
declaration order plus the return-type reference, with the function's own
resolver; only the types are kept (`Ty::from_hir(...).0`). -/
def fn_sig_for_fn (db : Db) (hdb : dbWF db = true) (f : Nat) : FnSig :=
  let data := db.function_data f
  let params := data.params.map fun tr =>
    (Ty.from_hir db hdb data.resolver (dbWF_function hdb f).2 data.type_ref_map
      (dbWF_function hdb f).1 tr).1
  let ret := (Ty.from_hir db hdb data.resolver (dbWF_function hdb f).2
    data.type_ref_map (dbWF_function hdb f).1 data.ret_type).1
  FnSig.from_params_and_return params ret

/-- `fn_sig_for_struct_constructor`: lower each field's declared type
reference in field-declaration order; the synthesized return type is the
struct's own Types-namespace type; only the types are kept. -/
def fn_sig_for_struct_constructor (db : Db) (hdb : dbWF db = true) (s : Nat) :
    FnSig :=
  let data := db.struct_data s
  let params := data.fields.map fun tr =>
    (Ty.from_hir db hdb data.resolver (dbWF_struct hdb s).2 data.type_ref_map
      (dbWF_struct hdb s).1 tr).1
  let ret := type_for_struct db s
  FnSig.from_params_and_return params ret

/-- `callable_item_sig`: the signature of a callable definition. -/
def callable_item_sig (db : Db) (hdb : dbWF db = true) (d : CallableDef) :
    FnSig :=
  match d with
  | CallableDef.function f => fn_sig_for_fn db hdb f
  | CallableDef.struct s => fn_sig_for_struct_constructor db hdb s

/-- Modelled from the spec: the session-scoped type interning table
(spec sections 3, 4.1 and design note 9), an append-only arena of
canonical shapes with lookup-before-insert; the table itself lives outside
this repository's sources (the source's `TyKind::intern` goes through the
salsa interner). -/
structure InternTable where
  shapes : List Ty

/-- Modelled from the spec: lookup of a structurally equal shape in the
shape arena, returning its index. -/
def InternTable.lookup : List Ty → Ty → Option Nat
  | [], _ => none
  | x :: xs, shape =>
      if Ty.beq x shape then some 0
      else (InternTable.lookup xs shape).map (fun i => i + 1)

/-- Modelled from the spec: `intern(shape) -> Handle` — return the
canonical handle (here: the index into the append-only shape arena) for a
structural shape, storing a new entry only if no structurally equal entry
exists. -/
def InternTable.intern (t : InternTable) (shape : Ty) :
    InternTable × Nat :=
  match InternTable.lookup t.shapes shape with
  | some i => (t, i)
  | none => (⟨t.shapes ++ [shape]⟩, t.shapes.length)

/-- The lexical resolver of the cyclic alias `A` (`type A = B`). -/
def cyclicResolverA : Resolver :=
  ⟨[("B", (TypeNs.typeAliasId 1, Visibility.pub))], some 0⟩

/-- The lexical resolver of the cyclic alias `B` (`type B = A`). -/
def cyclicResolverB : Resolver :=
  ⟨[("A", (TypeNs.typeAliasId 0, Visibility.pub))], some 0⟩

/-- The adversarial mutually-recursive alias pair of the spec's
cycle-termination property: alias 0 is `A` with right-hand side `B`,
alias 1 is `B` with right-hand side `A`. -/
def cyclicDb : Db :=
  ⟨[⟨[TypeRef.path "B"], 0, cyclicResolverA⟩,
    ⟨[TypeRef.path "A"], 0, cyclicResolverB⟩], [], []⟩

/-- A resolver that resolves `i32` to the 32-bit signed integer primitive
(integer kind tag 32). -/
def i32Resolver : Resolver :=
  ⟨[("i32", (TypeNs.primitiveType (PrimitiveType.int 32), Visibility.pub))],
    some 0⟩

/-- Two unrelated items (two type aliases) whose right-hand sides are both
the primitive reference `i32`: the interning-identity example. -/
def i32Db : Db :=
  ⟨[⟨[TypeRef.path "i32"], 0, i32Resolver⟩,
    ⟨[TypeRef.path "i32"], 0, i32Resolver⟩], [], []⟩

/-- A database with one function and one struct whose type references do
not resolve: lowering them produces `UnresolvedType` diagnostics, which
the signature queries discard. -/
def sigDb : Db :=
  ⟨[],
    [⟨[TypeRef.path "missing"], [0], 0, ⟨[], none⟩⟩],
    [⟨StructKind.record, [0], [TypeRef.path "missing"], ⟨[], none⟩⟩,
     ⟨StructKind.tuple, [0], [TypeRef.path "missing"], ⟨[], none⟩⟩]⟩

mutual

/-- Structural shape equality is reflexive. -/
theorem Ty.beq_refl : ∀ a : Ty, Ty.beq a a = true
  | .unknown => rfl
  | .never => rfl
  | .bool => rfl
  | .int k => by simp [Ty.beq]
  | .float k => by simp [Ty.beq]
  | .tuple n xs => by simp [Ty.beq, Ty.listBeq_refl xs]
  | .array x => by simp [Ty.beq, Ty.beq_refl x]
  | .struct s => by simp [Ty.beq]
  | .fnDef d xs => by simp [Ty.beq, Ty.listBeq_refl xs]

/-- Elementwise structural shape equality is reflexive. -/
theorem Ty.listBeq_refl : ∀ l : List Ty, Ty.listBeq l l = true
  | [] => rfl
  | x :: xs => by simp [Ty.listBeq, Ty.beq_refl x, Ty.listBeq_refl xs]

end

/-- The dispatch table itself always reports `cyclic = false`; the `true`
flag only ever originates from the engine's recovery. -/
theorem type_for_def_flag (db : Db) (hdb : dbWF db = true)
    (stack : List QueryKey) (d : TypableDef) (ns : Namespace)
    (hd : TypableDefWF db d) (hmem : (d, ns) ∉ stack) :
    (type_for_def db hdb stack d ns hd hmem).1.2 = false := by
  cases d <;> cases ns <;> simp [type_for_def]

/-- A declared-type query result flagged cyclic carries the `Unknown`
sentinel as its type. -/
theorem type_for_def_query_cyclic_unknown (db : Db) (hdb : dbWF db = true)
    (stack : List QueryKey) (d : TypableDef) (ns : Namespace)
    (hd : TypableDefWF db d) (ty : Ty) (cyc : List QueryKey)
    (h : type_for_def_query db hdb stack d ns hd = ((ty, true), cyc)) :
    ty = Ty.unknown := by
  rw [type_for_def_query] at h
  split at h
  · simp [type_for_cycle_recover] at h
    exact h.1.symm
  · dsimp only at h
    split at h
    · have hf := type_for_def_flag db hdb stack d ns hd (by assumption)
      rw [Prod.ext_iff, Prod.ext_iff] at h
      simp at h
      rw [h.1.2] at hf
      simp at hf
    · rw [Prod.ext_iff, Prod.ext_iff] at h
      simp at h
      exact h.1.symm

/-- Lowering a list of child references yields the children's individual
lowerings: types in order, diagnostics and pending keys concatenated in
order.  Each child's result does not depend on its siblings. -/
theorem from_hir_list_spec (db : Db) (hdb : dbWF db = true)
    (resolver : Resolver) (hres : resolverWF db.aliases.length resolver = true)
    (type_ref_map : List TypeRef) (hmap : arenaWF type_ref_map = true)
    (stack : List QueryKey) (parent : Nat) :
    ∀ (refs : List Nat) (hrefs : ∀ c ∈ refs, c < parent),
    Ty.from_hir_list db hdb resolver hres type_ref_map hmap stack parent refs
        hrefs =
      (refs.map (fun c => (Ty.from_hir_with_diagnostics db hdb resolver hres
        type_ref_map hmap stack c).1),
       refs.flatMap (fun c => (Ty.from_hir_with_diagnostics db hdb resolver hres
        type_ref_map hmap stack c).2.1),
       refs.flatMap (fun c => (Ty.from_hir_with_diagnostics db hdb resolver hres
        type_ref_map hmap stack c).2.2))
  | [], _ => by rw [Ty.from_hir_list]; simp
  | c :: rest, hrefs => by
      rw [Ty.from_hir_list]
      rw [from_hir_list_spec db hdb resolver hres type_ref_map hmap stack parent
        rest (fun x hx => hrefs x (List.mem_cons_of_mem _ hx))]
      simp

/-- One-step non-dependent characterization of
`Ty::from_hir_with_diagnostics`: the variant-directed dispatch of the
recursive lowering algorithm. -/
theorem from_hir_char (db : Db) (hdb : dbWF db = true) (resolver : Resolver)
    (hres : resolverWF db.aliases.length resolver = true)
    (type_ref_map : List TypeRef) (hmap : arenaWF type_ref_map = true)
    (stack : List QueryKey) (type_ref : Nat) :
    Ty.from_hir_with_diagnostics db hdb resolver hres type_ref_map hmap stack
        type_ref =
      match type_ref_map.getD type_ref TypeRef.error with
      | TypeRef.path p =>
          match Ty.from_path db hdb resolver hres stack type_ref p with
          | some (tb, ds, cyc) =>
              (tb.1, ds ++ (if tb.2 then [LowerDiagnostic.cyclicType type_ref]
                else []), cyc)
          | none =>
              (Ty.unknown, [LowerDiagnostic.unresolvedType type_ref], [])
      | TypeRef.error => (Ty.unknown, [], [])
      | TypeRef.never => (Ty.never, [], [])
      | TypeRef.tuple inner =>
          (Ty.tuple inner.length (inner.map (fun c =>
            (Ty.from_hir_with_diagnostics db hdb resolver hres type_ref_map
              hmap stack c).1)),
           inner.flatMap (fun c => (Ty.from_hir_with_diagnostics db hdb resolver
            hres type_ref_map hmap stack c).2.1),
           inner.flatMap (fun c => (Ty.from_hir_with_diagnostics db hdb resolver
            hres type_ref_map hmap stack c).2.2))
      | TypeRef.array inner =>
          (Ty.array (Ty.from_hir_with_diagnostics db hdb resolver hres
            type_ref_map hmap stack inner).1,
           (Ty.from_hir_with_diagnostics db hdb resolver hres type_ref_map hmap
            stack inner).2.1,
           (Ty.from_hir_with_diagnostics db hdb resolver hres type_ref_map hmap
            stack inner).2.2) := by
  rw [Ty.from_hir_with_diagnostics]
  dsimp only
  split
  next ty b ds cyc heq =>
    split at heq
    next p hr =>
      rw [hr]
      simp only [heq]
    next hr =>
      rw [hr]
      simp only [Option.some.injEq, Prod.mk.injEq] at heq
      obtain ⟨⟨rfl, rfl⟩, rfl, rfl⟩ := heq
      simp
    next inner hr =>
      rw [hr]
      rw [from_hir_list_spec] at heq
      simp only [Option.some.injEq, Prod.mk.injEq] at heq
      obtain ⟨⟨rfl, rfl⟩, rfl, rfl⟩ := heq
      simp
    next hr =>
      rw [hr]
      simp only [Option.some.injEq, Prod.mk.injEq] at heq
      obtain ⟨⟨rfl, rfl⟩, rfl, rfl⟩ := heq
      simp
    next inner hr =>
      rw [hr]
      simp only [Option.some.injEq, Prod.mk.injEq, Prod.ext_iff] at heq
      obtain ⟨⟨rfl, rfl⟩, rfl, rfl⟩ := heq
      simp
  next heq =>
    split at heq
    next p hr =>
      rw [hr]
      simp only [heq]
    next hr => simp at heq
    next inner hr => simp at heq
    next hr => simp at heq
    next inner hr => simp at heq

/-- When the name resolver fails on a path, path lowering reports failure
to its caller (`?` early return in the source). -/
theorem from_path_unresolved (db : Db) (hdb : dbWF db = true)
    (resolver : Resolver)
    (hres : resolverWF db.aliases.length resolver = true)
    (stack : List QueryKey) (type_ref : Nat) (path : String)
    (h : resolver.resolve_path_as_type_fully path = none) :
    Ty.from_path db hdb resolver hres stack type_ref path = none := by
  rw [Ty.from_path]
  split
  next hr => rfl
  next tyns vis hr =>
    rw [h] at hr
    cases hr

/-- When the name resolver succeeds, path lowering maps the entry to its
`TypableDef`, pushes a `TypeIsPrivate` diagnostic exactly when the entry
is not visible from the enclosing module, and returns the declared-type
query's answer for the Types namespace. -/
theorem from_path_resolved (db : Db) (hdb : dbWF db = true)
    (resolver : Resolver)
    (hres : resolverWF db.aliases.length resolver = true)
    (stack : List QueryKey) (type_ref : Nat) (path : String) (tyns : TypeNs)
    (vis : Visibility)
    (h : resolver.resolve_path_as_type_fully path = some (tyns, vis))
    (hd : TypableDefWF db (defOfTypeNs tyns)) :
    Ty.from_path db hdb resolver hres stack type_ref path =
      some ((type_for_def_query db hdb stack (defOfTypeNs tyns)
          Namespace.types hd).1,
        (match resolver.module with
         | some module =>
             if !(vis.is_visible_from module) then
               [LowerDiagnostic.typeIsPrivate type_ref]
             else []
         | none => []),
        (type_for_def_query db hdb stack (defOfTypeNs tyns)
          Namespace.types hd).2) := by
  rw [Ty.from_path]
  split
  next hr =>
    rw [h] at hr
    cases hr
  next tyns2 vis2 hr =>
    have h2 : some (tyns2, vis2) = some (tyns, vis) := hr.symm.trans h
    simp only [Option.some.injEq, Prod.mk.injEq] at h2
    obtain ⟨rfl, rfl⟩ := h2
    rfl

/-- A cyclic flag in a path-lowering result always accompanies the
`Unknown` sentinel. -/
theorem from_path_cyclic_unknown (db : Db) (hdb : dbWF db = true)
    (resolver : Resolver)
    (hres : resolverWF db.aliases.length resolver = true)
    (stack : List QueryKey) (type_ref : Nat) (path : String) (ty : Ty)
    (ds : List LowerDiagnostic) (cyc : List QueryKey)
    (h : Ty.from_path db hdb resolver hres stack type_ref path =
      some ((ty, true), ds, cyc)) :
    ty = Ty.unknown := by
  rw [Ty.from_path] at h
  split at h
  next hr => cases h
  next tyns vis hr =>
    simp only [Option.some.injEq, Prod.mk.injEq, Prod.ext_iff] at h
    obtain ⟨⟨h1, h2⟩, _⟩ := h
    exact type_for_def_query_cyclic_unknown db hdb stack (defOfTypeNs tyns)
      Namespace.types (defOfTypeNs_wf hres hr) ty
      (type_for_def_query db hdb stack (defOfTypeNs tyns) Namespace.types
        (defOfTypeNs_wf hres hr)).2
      (by rw [Prod.ext_iff, Prod.ext_iff]; exact ⟨⟨h1, h2⟩, rfl⟩)

/-- A path reference whose resolution is unresolved lowers to `Unknown`
and pushes exactly one `UnresolvedType` diagnostic keyed by the
reference's id. -/
theorem from_hir_path_unresolved (db : Db) (hdb : dbWF db = true)
    (resolver : Resolver)
    (hres : resolverWF db.aliases.length resolver = true)
    (type_ref_map : List TypeRef) (hmap : arenaWF type_ref_map = true)
    (stack : List QueryKey) (type_ref : Nat) (p : String)
    (h1 : type_ref_map.getD type_ref TypeRef.error = TypeRef.path p)
    (h2 : resolver.resolve_path_as_type_fully p = none) :
    Ty.from_hir_with_diagnostics db hdb resolver hres type_ref_map hmap stack
        type_ref
      = (Ty.unknown, [LowerDiagnostic.unresolvedType type_ref], []) := by
  rw [from_hir_char, h1]
  dsimp only
  rw [from_path_unresolved db hdb resolver hres stack type_ref p h2]

/-- A path reference whose path-lowering result carries the cyclic flag
lowers to `Unknown` and pushes exactly one `CyclicType` diagnostic keyed
by the reference's id (after any diagnostics the path resolution itself
pushed). -/
theorem from_hir_path_cyclic (db : Db) (hdb : dbWF db = true)
    (resolver : Resolver)
    (hres : resolverWF db.aliases.length resolver = true)
    (type_ref_map : List TypeRef) (hmap : arenaWF type_ref_map = true)
    (stack : List QueryKey) (type_ref : Nat) (p : String) (ty : Ty)
    (ds : List LowerDiagnostic) (cyc : List QueryKey)
    (h1 : type_ref_map.getD type_ref TypeRef.error = TypeRef.path p)
    (h2 : Ty.from_path db hdb resolver hres stack type_ref p =
      some ((ty, true), ds, cyc)) :
    Ty.from_hir_with_diagnostics db hdb resolver hres type_ref_map hmap stack
        type_ref
      = (Ty.unknown, ds ++ [LowerDiagnostic.cyclicType type_ref], cyc) := by
  have hu := from_path_cyclic_unknown db hdb resolver hres stack type_ref p ty
    ds cyc h2
  subst hu
  rw [from_hir_char, h1]
  dsimp only
  rw [h2]
  simp

/-- A path reference whose path-lowering result is not flagged cyclic
lowers to exactly the type the declared-type query computed, with exactly
the diagnostics path resolution pushed. -/
theorem from_hir_path_ok (db : Db) (hdb : dbWF db = true)
    (resolver : Resolver)
    (hres : resolverWF db.aliases.length resolver = true)
    (type_ref_map : List TypeRef) (hmap : arenaWF type_ref_map = true)
    (stack : List QueryKey) (type_ref : Nat) (p : String) (ty : Ty)
    (ds : List LowerDiagnostic) (cyc : List QueryKey)
    (h1 : type_ref_map.getD type_ref TypeRef.error = TypeRef.path p)
    (h2 : Ty.from_path db hdb resolver hres stack type_ref p =
      some ((ty, false), ds, cyc)) :
    Ty.from_hir_with_diagnostics db hdb resolver hres type_ref_map hmap stack
        type_ref = (ty, ds, cyc) := by
  rw [from_hir_char, h1]
  dsimp only
  rw [h2]
  simp

/-- A declared-type query for a key that is not in progress answers with
the dispatch table's result; since no re-entry can be pending for a
non-alias definition, the result is the dispatch's own, unflagged. -/
theorem tfdq_not_mem (db : Db) (hdb : dbWF db = true) (stack : List QueryKey)
    (d : TypableDef) (ns : Namespace) (hd : TypableDefWF db d)
    (hmem : (d, ns) ∉ stack)
    (h : (type_for_def db hdb stack d ns hd hmem).2 = []) :
    type_for_def_query db hdb stack d ns hd =
      ((type_for_def db hdb stack d ns hd hmem).1, []) := by
  rw [type_for_def_query, dif_neg hmem]
  dsimp only
  rw [h]
  simp

/-- The declared-type query of a struct in the Types namespace, when not
in progress, is the struct's own type. -/
theorem tfdq_struct_types (db : Db) (hdb : dbWF db = true)
    (stack : List QueryKey) (s : Nat) (hd : TypableDefWF db (TypableDef.struct s))
    (hmem : (TypableDef.struct s, Namespace.types) ∉ stack) :
    type_for_def_query db hdb stack (TypableDef.struct s) Namespace.types hd =
      ((Ty.struct s, false), []) := by
  rw [tfdq_not_mem db hdb stack _ _ hd hmem (by simp [type_for_def])]
  simp [type_for_def, type_for_struct]

/-- The declared-type query of a primitive in the Types namespace, when
not in progress, is the primitive's mapped type. -/
theorem tfdq_primitive_types (db : Db) (hdb : dbWF db = true)
    (stack : List QueryKey) (pt : PrimitiveType)
    (hd : TypableDefWF db (TypableDef.primitiveType pt))
    (hmem : (TypableDef.primitiveType pt, Namespace.types) ∉ stack) :
    type_for_def_query db hdb stack (TypableDef.primitiveType pt)
        Namespace.types hd
      = ((type_for_primitive pt, false), []) := by
  rw [tfdq_not_mem db hdb stack _ _ hd hmem (by simp [type_for_def])]
  simp [type_for_def]

/-- Per-item lowering visits every reference id owned by the arena, in
arena order, recording its lowered type and accumulating each lowering's
diagnostics, in order. -/
theorem types_from_hir_spec (db : Db) (hdb : dbWF db = true)
    (resolver : Resolver)
    (hres : resolverWF db.aliases.length resolver = true)
    (type_ref_map : List TypeRef) (hmap : arenaWF type_ref_map = true) :
    types_from_hir db hdb resolver hres type_ref_map hmap =
      ⟨(List.range type_ref_map.length).map (fun id =>
          (id, (Ty.from_hir_with_diagnostics db hdb resolver hres type_ref_map
            hmap [] id).1)),
        (List.range type_ref_map.length).flatMap (fun id =>
          (Ty.from_hir_with_diagnostics db hdb resolver hres type_ref_map hmap
            [] id).2.1)⟩ := by
  unfold types_from_hir
  have h : ∀ (l : List Nat) (init : LowerTyMap),
      l.foldl
        (fun result id =>
          let r := Ty.from_hir_with_diagnostics db hdb resolver hres
            type_ref_map hmap [] id
          { type_ref_to_type := result.type_ref_to_type ++ [(id, r.1)],
            diagnostics := result.diagnostics ++ r.2.1 }) init =
      ⟨init.type_ref_to_type ++ l.map (fun id =>
          (id, (Ty.from_hir_with_diagnostics db hdb resolver hres type_ref_map
            hmap [] id).1)),
        init.diagnostics ++ l.flatMap (fun id =>
          (Ty.from_hir_with_diagnostics db hdb resolver hres type_ref_map hmap
            [] id).2.1)⟩ := by
    intro l
    induction l with
    | nil => intro init; simp
    | cons a as ih =>
        intro init
        rw [List.foldl_cons, ih]
        simp
  rw [h]
  simp

/-- Looking up an id in the association list built over `List.range n`
finds exactly that id's entry. -/
theorem find_range_map {β : Type} (f : Nat → β) :
    ∀ (n i : Nat), i < n →
    ((List.range n).map (fun j => (j, f j))).find? (fun p => p.1 == i) =
      some (i, f i) := by
  intro n
  induction n with
  | zero => intro i h; omega
  | succ n ih =>
      intro i h
      rw [List.range_succ, List.map_append, List.find?_append]
      by_cases hi : i < n
      · rw [ih i hi]
        rfl
      · have hin : i = n := by omega
        subst hin
        have hnone : ((List.range i).map (fun j => (j, f j))).find?
            (fun p => p.1 == i) = none := by
          rw [List.find?_eq_none]
          intro x hx
          simp only [List.mem_map, List.mem_range] at hx
          obtain ⟨j, hj, rfl⟩ := hx
          simp
          omega
        rw [hnone]
        simp

/-- Indexing the per-item result at an id the arena owns reads exactly
that reference's lowered type. -/
theorem types_from_hir_index (db : Db) (hdb : dbWF db = true)
    (resolver : Resolver)
    (hres : resolverWF db.aliases.length resolver = true)
    (type_ref_map : List TypeRef) (hmap : arenaWF type_ref_map = true)
    (id : Nat) (h : id < type_ref_map.length) :
    (types_from_hir db hdb resolver hres type_ref_map hmap).index id =
      (Ty.from_hir_with_diagnostics db hdb resolver hres type_ref_map hmap []
        id).1 := by
  rw [types_from_hir_spec]
  unfold LowerTyMap.index
  rw [find_range_map _ _ _ h]

/-- Indexing the per-item result at an id absent from the mapping reads
the `Unknown` type rather than failing. -/
theorem types_from_hir_index_absent (db : Db) (hdb : dbWF db = true)
    (resolver : Resolver)
    (hres : resolverWF db.aliases.length resolver = true)
    (type_ref_map : List TypeRef) (hmap : arenaWF type_ref_map = true)
    (id : Nat) (h : type_ref_map.length ≤ id) :
    (types_from_hir db hdb resolver hres type_ref_map hmap).index id =
      Ty.unknown := by
  rw [types_from_hir_spec]
  unfold LowerTyMap.index
  have hnone : ((List.range type_ref_map.length).map (fun j =>
      (j, (Ty.from_hir_with_diagnostics db hdb resolver hres type_ref_map hmap
        [] j).1))).find? (fun p => p.1 == id) = none := by
    rw [List.find?_eq_none]
    intro x hx
    simp only [List.mem_map, List.mem_range] at hx
    obtain ⟨j, hj, rfl⟩ := hx
    simp
    omega
  rw [hnone]

/-- Re-entering a declared-type key already in progress short-circuits
with the recovery sentinel instead of recursing further. -/
theorem tfdq_mem (db : Db) (hdb : dbWF db = true) (stack : List QueryKey)
    (d : TypableDef) (ns : Namespace) (hd : TypableDefWF db d)
    (hmem : (d, ns) ∈ stack) :
    type_for_def_query db hdb stack d ns hd =
      ((Ty.unknown, true), [(d, ns)]) := by
  rw [type_for_def_query, dif_pos hmem]
  rfl

/-- Explicit unfolding of `type_for_type_alias`. -/
theorem tfta_unfold (db : Db) (hdb : dbWF db = true) (stack : List QueryKey)
    (t : Nat) (ht : t < db.aliases.length) (hmem : aliasKey t ∉ stack) :
    type_for_type_alias db hdb stack t ht hmem =
      ((Ty.from_hir_with_diagnostics db hdb (db.alias_data t).resolver
          (dbWF_alias hdb t).2 (db.alias_data t).type_ref_map
          (dbWF_alias hdb t).1 (aliasKey t :: stack)
          (db.alias_data t).type_ref).1,
       (Ty.from_hir_with_diagnostics db hdb (db.alias_data t).resolver
          (dbWF_alias hdb t).2 (db.alias_data t).type_ref_map
          (dbWF_alias hdb t).1 (aliasKey t :: stack)
          (db.alias_data t).type_ref).2.2) := by
  rw [type_for_type_alias]

/-- Lowering the cyclic alias `A` (`type A = B` against `type B = A`)
terminates: its one reference resolves to `Unknown` with exactly one
`CyclicType` diagnostic. -/
theorem cyclicDb_lowering_A (h : dbWF cyclicDb = true) :
    lower_type_alias_query cyclicDb h 0 =
      ⟨[(0, Ty.unknown)], [LowerDiagnostic.cyclicType 0]⟩ := by
  have e1 : ∀ hd, type_for_def_query cyclicDb h [aliasKey 0, aliasKey 1]
      (TypableDef.typeAlias 1) Namespace.types hd
      = ((Ty.unknown, true), [(TypableDef.typeAlias 1, Namespace.types)]) :=
    fun hd => tfdq_mem cyclicDb h _ _ _ hd (by simp [aliasKey])
  have e2 : ∀ hres, Ty.from_path cyclicDb h cyclicResolverA hres
      [aliasKey 0, aliasKey 1] 0 "B"
      = some ((Ty.unknown, true), [],
          [(TypableDef.typeAlias 1, Namespace.types)]) := by
    intro hres
    rw [from_path_resolved cyclicDb h cyclicResolverA hres _ 0 "B"
      (TypeNs.typeAliasId 1) Visibility.pub (by decide)
      (by exact (by decide : (1:Nat) < 2))]
    simp only [defOfTypeNs]
    rw [e1]
    rfl
  have e3 : ∀ hres hmap, Ty.from_hir_with_diagnostics cyclicDb h
      cyclicResolverA hres [TypeRef.path "B"] hmap [aliasKey 0, aliasKey 1] 0
      = (Ty.unknown, [LowerDiagnostic.cyclicType 0],
          [(TypableDef.typeAlias 1, Namespace.types)]) := by
    intro hres hmap
    have := from_hir_path_cyclic cyclicDb h cyclicResolverA hres
      [TypeRef.path "B"] hmap [aliasKey 0, aliasKey 1] 0 "B" Ty.unknown [] _
      rfl (e2 hres)
    simpa using this
  have e4 : ∀ ht hm2, type_for_type_alias cyclicDb h [aliasKey 1] 0 ht hm2
      = (Ty.unknown, [(TypableDef.typeAlias 1, Namespace.types)]) := by
    intro ht hm2
    rw [tfta_unfold]
    simp only [show cyclicDb.alias_data 0
      = ⟨[TypeRef.path "B"], 0, cyclicResolverA⟩ from rfl]
    rw [e3]
  have e5 : ∀ hd hm2, type_for_def cyclicDb h [aliasKey 1]
      (TypableDef.typeAlias 0) Namespace.types hd hm2
      = ((Ty.unknown, false), [(TypableDef.typeAlias 1, Namespace.types)]) := by
    intro hd hm2
    simp [type_for_def, e4]
  have e6 : ∀ hd, type_for_def_query cyclicDb h [aliasKey 1]
      (TypableDef.typeAlias 0) Namespace.types hd
      = ((Ty.unknown, true), [(TypableDef.typeAlias 1, Namespace.types)]) := by
    intro hd
    rw [type_for_def_query, dif_neg (by simp [aliasKey])]
    dsimp only
    rw [e5]
    simp [aliasKey]
  have e7 : ∀ hres, Ty.from_path cyclicDb h cyclicResolverB hres [aliasKey 1]
      0 "A"
      = some ((Ty.unknown, true), [],
          [(TypableDef.typeAlias 1, Namespace.types)]) := by
    intro hres
    rw [from_path_resolved cyclicDb h cyclicResolverB hres _ 0 "A"
      (TypeNs.typeAliasId 0) Visibility.pub (by decide)
      (by exact (by decide : (0:Nat) < 2))]
    simp only [defOfTypeNs]
    rw [e6]
    rfl
  have e8 : ∀ hres hmap, Ty.from_hir_with_diagnostics cyclicDb h
      cyclicResolverB hres [TypeRef.path "A"] hmap [aliasKey 1] 0
      = (Ty.unknown, [LowerDiagnostic.cyclicType 0],
          [(TypableDef.typeAlias 1, Namespace.types)]) := by
    intro hres hmap
    have := from_hir_path_cyclic cyclicDb h cyclicResolverB hres
      [TypeRef.path "A"] hmap [aliasKey 1] 0 "A" Ty.unknown [] _ rfl (e7 hres)
    simpa using this
  have e9 : ∀ ht hm2, type_for_type_alias cyclicDb h [] 1 ht hm2
      = (Ty.unknown, [(TypableDef.typeAlias 1, Namespace.types)]) := by
    intro ht hm2
    rw [tfta_unfold]
    simp only [show cyclicDb.alias_data 1
      = ⟨[TypeRef.path "A"], 0, cyclicResolverB⟩ from rfl]
    rw [e8]
  have e10 : ∀ hd hm2, type_for_def cyclicDb h [] (TypableDef.typeAlias 1)
      Namespace.types hd hm2
      = ((Ty.unknown, false), [(TypableDef.typeAlias 1, Namespace.types)]) := by
    intro hd hm2
    simp [type_for_def, e9]
  have e11 : ∀ hd, type_for_def_query cyclicDb h [] (TypableDef.typeAlias 1)
      Namespace.types hd = ((Ty.unknown, true), []) := by
    intro hd
    rw [type_for_def_query, dif_neg (by simp)]
    dsimp only
    rw [e10]
    simp
  have e12 : ∀ hres, Ty.from_path cyclicDb h cyclicResolverA hres [] 0 "B"
      = some ((Ty.unknown, true), [], []) := by
    intro hres
    rw [from_path_resolved cyclicDb h cyclicResolverA hres _ 0 "B"
      (TypeNs.typeAliasId 1) Visibility.pub (by decide)
      (by exact (by decide : (1:Nat) < 2))]
    simp only [defOfTypeNs]
    rw [e11]
    rfl
  have e13 : ∀ hres hmap, Ty.from_hir_with_diagnostics cyclicDb h
      cyclicResolverA hres [TypeRef.path "B"] hmap [] 0
      = (Ty.unknown, [LowerDiagnostic.cyclicType 0], []) := by
    intro hres hmap
    have := from_hir_path_cyclic cyclicDb h cyclicResolverA hres
      [TypeRef.path "B"] hmap [] 0 "B" Ty.unknown [] _ rfl (e12 hres)
    simpa using this
  unfold lower_type_alias_query
  simp only [show cyclicDb.alias_data 0
    = ⟨[TypeRef.path "B"], 0, cyclicResolverA⟩ from rfl]
  rw [types_from_hir_spec]
  simp [List.range_succ, e13]

/-- Lowering the cyclic alias `B` (`type B = A` against `type A = B`)
terminates: its one reference resolves to `Unknown` with exactly one
`CyclicType` diagnostic. -/
theorem cyclicDb_lowering_B (h : dbWF cyclicDb = true) :
    lower_type_alias_query cyclicDb h 1 =
      ⟨[(0, Ty.unknown)], [LowerDiagnostic.cyclicType 0]⟩ := by
  have f1 : ∀ hd, type_for_def_query cyclicDb h [aliasKey 1, aliasKey 0]
      (TypableDef.typeAlias 0) Namespace.types hd
      = ((Ty.unknown, true), [(TypableDef.typeAlias 0, Namespace.types)]) :=
    fun hd => tfdq_mem cyclicDb h _ _ _ hd (by simp [aliasKey])
  have f2 : ∀ hres, Ty.from_path cyclicDb h cyclicResolverB hres
      [aliasKey 1, aliasKey 0] 0 "A"
      = some ((Ty.unknown, true), [],
          [(TypableDef.typeAlias 0, Namespace.types)]) := by
    intro hres
    rw [from_path_resolved cyclicDb h cyclicResolverB hres _ 0 "A"
      (TypeNs.typeAliasId 0) Visibility.pub (by decide)
      (by exact (by decide : (0:Nat) < 2))]
    simp only [defOfTypeNs]
    rw [f1]
    rfl
  have f3 : ∀ hres hmap, Ty.from_hir_with_diagnostics cyclicDb h
      cyclicResolverB hres [TypeRef.path "A"] hmap [aliasKey 1, aliasKey 0] 0
      = (Ty.unknown, [LowerDiagnostic.cyclicType 0],
          [(TypableDef.typeAlias 0, Namespace.types)]) := by
    intro hres hmap
    have := from_hir_path_cyclic cyclicDb h cyclicResolverB hres
      [TypeRef.path "A"] hmap [aliasKey 1, aliasKey 0] 0 "A" Ty.unknown [] _
      rfl (f2 hres)
    simpa using this
  have f4 : ∀ ht hm2, type_for_type_alias cyclicDb h [aliasKey 0] 1 ht hm2
      = (Ty.unknown, [(TypableDef.typeAlias 0, Namespace.types)]) := by
    intro ht hm2
    rw [tfta_unfold]
    simp only [show cyclicDb.alias_data 1
      = ⟨[TypeRef.path "A"], 0, cyclicResolverB⟩ from rfl]
    rw [f3]
  have f5 : ∀ hd hm2, type_for_def cyclicDb h [aliasKey 0]
      (TypableDef.typeAlias 1) Namespace.types hd hm2
      = ((Ty.unknown, false), [(TypableDef.typeAlias 0, Namespace.types)]) := by
    intro hd hm2
    simp [type_for_def, f4]
  have f6 : ∀ hd, type_for_def_query cyclicDb h [aliasKey 0]
      (TypableDef.typeAlias 1) Namespace.types hd
      = ((Ty.unknown, true), [(TypableDef.typeAlias 0, Namespace.types)]) := by
    intro hd
    rw [type_for_def_query, dif_neg (by simp [aliasKey])]
    dsimp only
    rw [f5]
    simp [aliasKey]
  have f7 : ∀ hres, Ty.from_path cyclicDb h cyclicResolverA hres [aliasKey 0]
      0 "B"
      = some ((Ty.unknown, true), [],
          [(TypableDef.typeAlias 0, Namespace.types)]) := by
    intro hres
    rw [from_path_resolved cyclicDb h cyclicResolverA hres _ 0 "B"
      (TypeNs.typeAliasId 1) Visibility.pub (by decide)
      (by exact (by decide : (1:Nat) < 2))]
    simp only [defOfTypeNs]
    rw [f6]
    rfl
  have f8 : ∀ hres hmap, Ty.from_hir_with_diagnostics cyclicDb h
      cyclicResolverA hres [TypeRef.path "B"] hmap [aliasKey 0] 0
      = (Ty.unknown, [LowerDiagnostic.cyclicType 0],
          [(TypableDef.typeAlias 0, Namespace.types)]) := by
    intro hres hmap
    have := from_hir_path_cyclic cyclicDb h cyclicResolverA hres
      [TypeRef.path "B"] hmap [aliasKey 0] 0 "B" Ty.unknown [] _ rfl (f7 hres)
    simpa using this
  have f9 : ∀ ht hm2, type_for_type_alias cyclicDb h [] 0 ht hm2
      = (Ty.unknown, [(TypableDef.typeAlias 0, Namespace.types)]) := by
    intro ht hm2
    rw [tfta_unfold]
    simp only [show cyclicDb.alias_data 0
      = ⟨[TypeRef.path "B"], 0, cyclicResolverA⟩ from rfl]
    rw [f8]
  have f10 : ∀ hd hm2, type_for_def cyclicDb h [] (TypableDef.typeAlias 0)
      Namespace.types hd hm2
      = ((Ty.unknown, false), [(TypableDef.typeAlias 0, Namespace.types)]) := by
    intro hd hm2
    simp [type_for_def, f9]
  have f11 : ∀ hd, type_for_def_query cyclicDb h [] (TypableDef.typeAlias 0)
      Namespace.types hd = ((Ty.unknown, true), []) := by
    intro hd
    rw [type_for_def_query, dif_neg (by simp)]
    dsimp only
    rw [f10]
    simp
  have f12 : ∀ hres, Ty.from_path cyclicDb h cyclicResolverB hres [] 0 "A"
      = some ((Ty.unknown, true), [], []) := by
    intro hres
    rw [from_path_resolved cyclicDb h cyclicResolverB hres _ 0 "A"
      (TypeNs.typeAliasId 0) Visibility.pub (by decide)
      (by exact (by decide : (0:Nat) < 2))]
    simp only [defOfTypeNs]
    rw [f11]
    rfl
  have f13 : ∀ hres hmap, Ty.from_hir_with_diagnostics cyclicDb h
      cyclicResolverB hres [TypeRef.path "A"] hmap [] 0
      = (Ty.unknown, [LowerDiagnostic.cyclicType 0], []) := by
    intro hres hmap
    have := from_hir_path_cyclic cyclicDb h cyclicResolverB hres
      [TypeRef.path "A"] hmap [] 0 "A" Ty.unknown [] _ rfl (f12 hres)
    simpa using this
  unfold lower_type_alias_query
  simp only [show cyclicDb.alias_data 1
    = ⟨[TypeRef.path "A"], 0, cyclicResolverB⟩ from rfl]
  rw [types_from_hir_spec]
  simp [List.range_succ, f13]

/-- A shape appended to the arena is found at its own index when no
structurally equal shape preceded it. -/
theorem lookup_append_none (xs : List Ty) (shape : Ty)
    (h : InternTable.lookup xs shape = none) :
    InternTable.lookup (xs ++ [shape]) shape = some xs.length := by
  induction xs with
  | nil => simp [InternTable.lookup, Ty.beq_refl]
  | cons x xs2 ih =>
      by_cases hb : Ty.beq x shape = true
      · simp [InternTable.lookup, hb] at h
      · simp [InternTable.lookup, hb] at h
        simp [InternTable.lookup, hb, ih h]

/-- Interning is idempotent: repeated intern calls with a structurally
equal shape return the same handle and leave the table unchanged. -/
theorem intern_stable (t : InternTable) (shape : Ty) :
    ((t.intern shape).1).intern shape = t.intern shape := by
  rcases h : InternTable.lookup t.shapes shape with _ | i
  · have h1 : t.intern shape = (⟨t.shapes ++ [shape]⟩, t.shapes.length) := by
      simp [InternTable.intern, h]
    rw [h1]
    simp [InternTable.intern, lookup_append_none t.shapes shape h]
  · have h1 : t.intern shape = (t, i) := by
      simp [InternTable.intern, h]
    rw [h1]
    exact h1

/-- Lowering the primitive reference `i32` (in any item of `i32Db`, at any
query stack) yields the canonical 32-bit integer type with no diagnostics. -/
theorem i32_from_hir (h : dbWF i32Db = true) :
    ∀ hres hmap, Ty.from_hir_with_diagnostics i32Db h i32Resolver hres
      [TypeRef.path "i32"] hmap [] 0 = (Ty.int 32, [], []) := by
  intro hres hmap
  apply from_hir_path_ok i32Db h i32Resolver hres [TypeRef.path "i32"] hmap []
    0 "i32" (Ty.int 32) [] [] rfl
  rw [from_path_resolved i32Db h i32Resolver hres [] 0 "i32"
    (TypeNs.primitiveType (PrimitiveType.int 32)) Visibility.pub (by decide)
    (by exact trivial)]
  simp only [defOfTypeNs]
  rw [tfdq_primitive_types i32Db h [] (PrimitiveType.int 32) trivial
    (by simp)]
  rfl

/-- Lowering the first `i32` item. -/
theorem i32Db_lowering_0 (h : dbWF i32Db = true) :
    lower_type_alias_query i32Db h 0 = ⟨[(0, Ty.int 32)], []⟩ := by
  unfold lower_type_alias_query
  simp only [show i32Db.alias_data 0
    = ⟨[TypeRef.path "i32"], 0, i32Resolver⟩ from rfl]
  rw [types_from_hir_spec]
  simp [List.range_succ, i32_from_hir h]

/-- Lowering the second, unrelated `i32` item. -/
theorem i32Db_lowering_1 (h : dbWF i32Db = true) :
    lower_type_alias_query i32Db h 1 = ⟨[(0, Ty.int 32)], []⟩ := by
  unfold lower_type_alias_query
  simp only [show i32Db.alias_data 1
    = ⟨[TypeRef.path "i32"], 0, i32Resolver⟩ from rfl]
  rw [types_from_hir_spec]
  simp [List.range_succ, i32_from_hir h]

/-- The cyclic alias pair is a well-formed database. -/
theorem cyclicDb_wf : dbWF cyclicDb = true := by decide

/-- The `i32` example is a well-formed database. -/
theorem i32Db_wf : dbWF i32Db = true := by decide

/-- The signature example is a well-formed database. -/
theorem sigDb_wf : dbWF sigDb = true := by decide

/-- Alias `A`'s resolver is well formed for `cyclicDb`. -/
theorem cyclicResolverA_wf :
    resolverWF cyclicDb.aliases.length cyclicResolverA = true := by decide

/-- Alias `A`'s arena is well formed. -/
theorem mapB_wf : arenaWF [TypeRef.path "B"] = true := by decide

/-- Alias 1 of `cyclicDb` is a meaningful definition id. -/
theorem cyclicAlias1_wf : TypableDefWF cyclicDb (TypableDef.typeAlias 1) :=
  (by decide : (1:Nat) < 2)

/-- The innermost path lowering of the cyclic pair: resolving `B` while
both aliases are already in progress re-enters `B`'s key and receives the
recovery sentinel. -/
theorem cyclicDb_inner_from_path (h : dbWF cyclicDb = true)
    (hres : resolverWF cyclicDb.aliases.length cyclicResolverA = true) :
    Ty.from_path cyclicDb h cyclicResolverA hres [aliasKey 0, aliasKey 1] 0 "B"
      = some ((Ty.unknown, true), [],
          [(TypableDef.typeAlias 1, Namespace.types)]) := by
  rw [from_path_resolved cyclicDb h cyclicResolverA hres _ 0 "B"
    (TypeNs.typeAliasId 1) Visibility.pub (by decide)
    (by exact (by decide : (1:Nat) < 2))]
  simp only [defOfTypeNs]
  rw [tfdq_mem cyclicDb h _ _ _ _ (by simp [aliasKey])]
  rfl

/-- C1: type lowering terminates on every syntactically well-formed
reference arena, including the mutually-referential alias pair
`type A = B`, `type B = A`.  Totality over arbitrary adversarial name
graphs is established by construction: the lowering functions are defined
by well-founded recursion (on the lexicographic measure of free alias
declarations and arena ids), so every invocation returns; no abort channel
exists.  This theorem exhibits the canonical adversarial instance: both
aliases of the cyclic pair lower to a definite result (via the
cycle-recovery short-circuit) rather than recursing unboundedly. -/
theorem claim_C1 :
    lower_type_alias_query cyclicDb cyclicDb_wf 0
      = ⟨[(0, Ty.unknown)], [LowerDiagnostic.cyclicType 0]⟩ ∧
    lower_type_alias_query cyclicDb cyclicDb_wf 1
      = ⟨[(0, Ty.unknown)], [LowerDiagnostic.cyclicType 0]⟩ :=
  ⟨cyclicDb_lowering_A cyclicDb_wf, cyclicDb_lowering_B cyclicDb_wf⟩

/-- C2: the cycle-recovery function returns the `(Unknown, cyclic = true)`
sentinel for every invocation; re-entering an in-progress declared-type
key short-circuits with that sentinel; whenever path lowering receives a
result with the cyclic flag set, the reference lowers to `Unknown` and
exactly one `CyclicType` diagnostic keyed by that reference's local id is
pushed (after any diagnostics path resolution itself pushed); and in the
cycle `A = B`, `B = A` both aliases resolve to `Unknown` with exactly one
`CyclicType` diagnostic per reference. -/
theorem claim_C2 :
    (∀ (db : Db) (cycle : List String) (d : TypableDef) (ns : Namespace),
      type_for_cycle_recover db cycle d ns = (Ty.unknown, true)) ∧
    (∀ (db : Db) (hdb : dbWF db = true) (stack : List QueryKey)
      (d : TypableDef) (ns : Namespace) (hd : TypableDefWF db d),
      (d, ns) ∈ stack →
      type_for_def_query db hdb stack d ns hd
        = ((Ty.unknown, true), [(d, ns)])) ∧
    (∀ (db : Db) (hdb : dbWF db = true) (resolver : Resolver)
      (hres : resolverWF db.aliases.length resolver = true)
      (type_ref_map : List TypeRef) (hmap : arenaWF type_ref_map = true)
      (stack : List QueryKey) (id : Nat) (p : String) (ty : Ty)
      (ds : List LowerDiagnostic) (cyc : List QueryKey),
      type_ref_map.getD id TypeRef.error = TypeRef.path p →
      Ty.from_path db hdb resolver hres stack id p
        = some ((ty, true), ds, cyc) →
      Ty.from_hir_with_diagnostics db hdb resolver hres type_ref_map hmap
          stack id
        = (Ty.unknown, ds ++ [LowerDiagnostic.cyclicType id], cyc)) ∧
    (lower_type_alias_query cyclicDb cyclicDb_wf 0
        = ⟨[(0, Ty.unknown)], [LowerDiagnostic.cyclicType 0]⟩ ∧
     lower_type_alias_query cyclicDb cyclicDb_wf 1
        = ⟨[(0, Ty.unknown)], [LowerDiagnostic.cyclicType 0]⟩ ∧
     (lower_type_alias_query cyclicDb cyclicDb_wf 0).index 0 = Ty.unknown ∧
     (lower_type_alias_query cyclicDb cyclicDb_wf 1).index 0 = Ty.unknown) := by
  refine ⟨fun db cycle d ns => rfl,
    fun db hdb stack d ns hd hmem => tfdq_mem db hdb stack d ns hd hmem,
    fun db hdb resolver hres m hmap stack id p ty ds cyc h1 h2 =>
      from_hir_path_cyclic db hdb resolver hres m hmap stack id p ty ds cyc
        h1 h2,
    cyclicDb_lowering_A cyclicDb_wf, cyclicDb_lowering_B cyclicDb_wf, ?_, ?_⟩
  · rw [cyclicDb_lowering_A cyclicDb_wf]
    rfl
  · rw [cyclicDb_lowering_B cyclicDb_wf]
    rfl

/-- Witness for C2: the sentinel and the single-diagnostic behaviour at
the concrete cyclic pair. -/
theorem claim_C2_witness :
    type_for_def_query cyclicDb cyclicDb_wf [aliasKey 0, aliasKey 1]
        (TypableDef.typeAlias 1) Namespace.types cyclicAlias1_wf
      = ((Ty.unknown, true), [(TypableDef.typeAlias 1, Namespace.types)]) ∧
    Ty.from_hir_with_diagnostics cyclicDb cyclicDb_wf cyclicResolverA
        cyclicResolverA_wf [TypeRef.path "B"] mapB_wf
        [aliasKey 0, aliasKey 1] 0
      = (Ty.unknown, [] ++ [LowerDiagnostic.cyclicType 0],
          [(TypableDef.typeAlias 1, Namespace.types)]) :=
  ⟨claim_C2.2.1 cyclicDb cyclicDb_wf [aliasKey 0, aliasKey 1]
      (TypableDef.typeAlias 1) Namespace.types cyclicAlias1_wf
      (by simp [aliasKey]),
   claim_C2.2.2.1 cyclicDb cyclicDb_wf cyclicResolverA cyclicResolverA_wf
      [TypeRef.path "B"] mapB_wf [aliasKey 0, aliasKey 1] 0 "B" Ty.unknown []
      [(TypableDef.typeAlias 1, Namespace.types)] rfl
      (cyclicDb_inner_from_path cyclicDb_wf cyclicResolverA_wf)⟩

/-- C3: declared-type dispatch follows the spec's
`(definition, namespace)` table for every pair: Function/Values gives
`FnDef` with empty substitution; PrimitiveType/Types maps bool/int/float
kinds directly; Struct/Types gives the struct type; tuple-shaped
Struct/Values gives the constructor `FnDef`, a value distinct from the
Types-namespace struct type; record- or unit-shaped Struct/Values gives
the same value as the Types-namespace type; TypeAlias/Types lowers the
alias's right-hand side; every mismatched pair yields `Unknown` (and the
dispatch has no diagnostics channel at all, so no diagnostic can be
pushed); and the non-recovery dispatch always reports `cyclic = false`. -/
theorem claim_C3 :
    (∀ (db : Db) (hdb : dbWF db = true) (stack : List QueryKey) (f : Nat)
      (hd : TypableDefWF db (TypableDef.function f))
      (hmem : (TypableDef.function f, Namespace.values) ∉ stack),
      type_for_def db hdb stack (TypableDef.function f) Namespace.values hd
          hmem
        = ((Ty.fnDef (CallableDef.function f) [], false), [])) ∧
    (∀ (db : Db) (hdb : dbWF db = true) (stack : List QueryKey)
      (pt : PrimitiveType) (hd : TypableDefWF db (TypableDef.primitiveType pt))
      (hmem : (TypableDef.primitiveType pt, Namespace.types) ∉ stack),
      type_for_def db hdb stack (TypableDef.primitiveType pt) Namespace.types
          hd hmem
        = ((type_for_primitive pt, false), [])) ∧
    (type_for_primitive PrimitiveType.bool = Ty.bool ∧
     (∀ k, type_for_primitive (PrimitiveType.int k) = Ty.int k) ∧
     (∀ k, type_for_primitive (PrimitiveType.float k) = Ty.float k)) ∧
    (∀ (db : Db) (hdb : dbWF db = true) (stack : List QueryKey) (s : Nat)
      (hd : TypableDefWF db (TypableDef.struct s))
      (hmem : (TypableDef.struct s, Namespace.types) ∉ stack),
      type_for_def db hdb stack (TypableDef.struct s) Namespace.types hd hmem
        = ((Ty.struct s, false), [])) ∧
    (∀ (db : Db) (hdb : dbWF db = true) (stack : List QueryKey) (s : Nat)
      (hd : TypableDefWF db (TypableDef.struct s))
      (hmem : (TypableDef.struct s, Namespace.values) ∉ stack),
      (db.struct_data s).kind = StructKind.tuple →
      type_for_def db hdb stack (TypableDef.struct s) Namespace.values hd hmem
          = ((Ty.fnDef (CallableDef.struct s) [], false), []) ∧
        Ty.fnDef (CallableDef.struct s) [] ≠ Ty.struct s) ∧
    (∀ (db : Db) (hdb : dbWF db = true) (stack : List QueryKey) (s : Nat)
      (hd : TypableDefWF db (TypableDef.struct s))
      (hmem : (TypableDef.struct s, Namespace.values) ∉ stack),
      (db.struct_data s).kind = StructKind.record ∨
        (db.struct_data s).kind = StructKind.unit →
      (type_for_def db hdb stack (TypableDef.struct s) Namespace.values hd
          hmem).1.1
        = type_for_struct db s) ∧
    (∀ (db : Db) (hdb : dbWF db = true) (stack : List QueryKey) (t : Nat)
      (hd : TypableDefWF db (TypableDef.typeAlias t))
      (hmem : (TypableDef.typeAlias t, Namespace.types) ∉ stack),
      (type_for_def db hdb stack (TypableDef.typeAlias t) Namespace.types hd
          hmem).1.1
        = (Ty.from_hir_with_diagnostics db hdb (db.alias_data t).resolver
            (dbWF_alias hdb t).2 (db.alias_data t).type_ref_map
            (dbWF_alias hdb t).1 (aliasKey t :: stack)
            (db.alias_data t).type_ref).1) ∧
    (∀ (db : Db) (hdb : dbWF db = true) (stack : List QueryKey) (f : Nat)
      (hd : TypableDefWF db (TypableDef.function f))
      (hmem : (TypableDef.function f, Namespace.types) ∉ stack),
      type_for_def db hdb stack (TypableDef.function f) Namespace.types hd hmem
        = ((Ty.unknown, false), [])) ∧
    (∀ (db : Db) (hdb : dbWF db = true) (stack : List QueryKey)
      (pt : PrimitiveType) (hd : TypableDefWF db (TypableDef.primitiveType pt))
      (hmem : (TypableDef.primitiveType pt, Namespace.values) ∉ stack),
      type_for_def db hdb stack (TypableDef.primitiveType pt) Namespace.values
          hd hmem
        = ((Ty.unknown, false), [])) ∧
    (∀ (db : Db) (hdb : dbWF db = true) (stack : List QueryKey) (t : Nat)
      (hd : TypableDefWF db (TypableDef.typeAlias t))
      (hmem : (TypableDef.typeAlias t, Namespace.values) ∉ stack),
      type_for_def db hdb stack (TypableDef.typeAlias t) Namespace.values hd
          hmem
        = ((Ty.unknown, false), [])) ∧
    (∀ (db : Db) (hdb : dbWF db = true) (stack : List QueryKey)
      (d : TypableDef) (ns : Namespace) (hd : TypableDefWF db d)
      (hmem : (d, ns) ∉ stack),
      (type_for_def db hdb stack d ns hd hmem).1.2 = false) := by
  refine ⟨?_, ?_, ⟨rfl, fun k => rfl, fun k => rfl⟩, ?_, ?_, ?_, ?_, ?_, ?_,
    ?_, ?_⟩
  · intro db hdb stack f hd hmem
    simp [type_for_def, type_for_fn]
  · intro db hdb stack pt hd hmem
    simp [type_for_def]
  · intro db hdb stack s hd hmem
    simp [type_for_def, type_for_struct]
  · intro db hdb stack s hd hmem hkind
    constructor
    · simp [type_for_def, type_for_struct_constructor, hkind]
    · exact fun hcon => Ty.noConfusion hcon
  · intro db hdb stack s hd hmem hkind
    have hne : ¬((db.struct_data s).kind = StructKind.tuple) := by
      rcases hkind with hk | hk <;> rw [hk] <;> exact fun hcon =>
        StructKind.noConfusion hcon
    simp [type_for_def, type_for_struct_constructor, hne]
  · intro db hdb stack t hd hmem
    simp [type_for_def, tfta_unfold]
  · intro db hdb stack f hd hmem
    simp [type_for_def]
  · intro db hdb stack pt hd hmem
    simp [type_for_def]
  · intro db hdb stack t hd hmem
    simp [type_for_def]
  · intro db hdb stack d ns hd hmem
    exact type_for_def_flag db hdb stack d ns hd hmem

/-- Witness for C3: the dispatch table evaluated at the concrete example
database (a function, a record struct and a tuple struct). -/
theorem claim_C3_witness :
    type_for_def sigDb sigDb_wf [] (TypableDef.function 0) Namespace.values
        True.intro (List.not_mem_nil _)
      = ((Ty.fnDef (CallableDef.function 0) [], false), []) ∧
    type_for_def sigDb sigDb_wf [] (TypableDef.primitiveType PrimitiveType.bool)
        Namespace.types True.intro (List.not_mem_nil _)
      = ((type_for_primitive PrimitiveType.bool, false), []) ∧
    type_for_primitive (PrimitiveType.int 7) = Ty.int 7 ∧
    type_for_def sigDb sigDb_wf [] (TypableDef.struct 1) Namespace.values
        True.intro (List.not_mem_nil _)
      = ((Ty.fnDef (CallableDef.struct 1) [], false), []) ∧
    (type_for_def sigDb sigDb_wf [] (TypableDef.struct 0) Namespace.values
        True.intro (List.not_mem_nil _)).1.1
      = type_for_struct sigDb 0 ∧
    type_for_def sigDb sigDb_wf [] (TypableDef.function 0) Namespace.types
        True.intro (List.not_mem_nil _)
      = ((Ty.unknown, false), []) ∧
    (type_for_def sigDb sigDb_wf [] (TypableDef.function 0) Namespace.values
        True.intro (List.not_mem_nil _)).1.2 = false :=
  ⟨claim_C3.1 sigDb sigDb_wf [] 0 True.intro (List.not_mem_nil _),
   claim_C3.2.1 sigDb sigDb_wf [] PrimitiveType.bool True.intro
     (List.not_mem_nil _),
   claim_C3.2.2.1.2.1 7,
   (claim_C3.2.2.2.2.1 sigDb sigDb_wf [] 1 True.intro (List.not_mem_nil _)
     rfl).1,
   claim_C3.2.2.2.2.2.1 sigDb sigDb_wf [] 0 True.intro (List.not_mem_nil _)
     (Or.inl rfl),
   claim_C3.2.2.2.2.2.2.2.1 sigDb sigDb_wf [] 0 True.intro
     (List.not_mem_nil _),
   claim_C3.2.2.2.2.2.2.2.2.2.2 sigDb sigDb_wf [] (TypableDef.function 0)
     Namespace.values True.intro (List.not_mem_nil _)⟩

/-- C4: the recursive lowering algorithm returns exactly the
variant-directed result for every non-path reference: `Error` lowers to
`Unknown` with no diagnostic, `Never` lowers to `Never`, a tuple lowers
each child in order into `Tuple(len(children), [lowered children])`, and
an array lowers its child and wraps it as `Array(child type)`. -/
theorem claim_C4 :
    (∀ (db : Db) (hdb : dbWF db = true) (resolver : Resolver)
      (hres : resolverWF db.aliases.length resolver = true)
      (type_ref_map : List TypeRef) (hmap : arenaWF type_ref_map = true)
      (stack : List QueryKey) (id : Nat),
      type_ref_map.getD id TypeRef.error = TypeRef.error →
      Ty.from_hir_with_diagnostics db hdb resolver hres type_ref_map hmap
        stack id = (Ty.unknown, [], [])) ∧
    (∀ (db : Db) (hdb : dbWF db = true) (resolver : Resolver)
      (hres : resolverWF db.aliases.length resolver = true)
      (type_ref_map : List TypeRef) (hmap : arenaWF type_ref_map = true)
      (stack : List QueryKey) (id : Nat),
      type_ref_map.getD id TypeRef.error = TypeRef.never →
      Ty.from_hir_with_diagnostics db hdb resolver hres type_ref_map hmap
        stack id = (Ty.never, [], [])) ∧
    (∀ (db : Db) (hdb : dbWF db = true) (resolver : Resolver)
      (hres : resolverWF db.aliases.length resolver = true)
      (type_ref_map : List TypeRef) (hmap : arenaWF type_ref_map = true)
      (stack : List QueryKey) (id : Nat) (inner : List Nat),
      type_ref_map.getD id TypeRef.error = TypeRef.tuple inner →
      Ty.from_hir_with_diagnostics db hdb resolver hres type_ref_map hmap
          stack id
        = (Ty.tuple inner.length (inner.map (fun c =>
            (Ty.from_hir_with_diagnostics db hdb resolver hres type_ref_map
              hmap stack c).1)),
           inner.flatMap (fun c => (Ty.from_hir_with_diagnostics db hdb
             resolver hres type_ref_map hmap stack c).2.1),
           inner.flatMap (fun c => (Ty.from_hir_with_diagnostics db hdb
             resolver hres type_ref_map hmap stack c).2.2))) ∧
    (∀ (db : Db) (hdb : dbWF db = true) (resolver : Resolver)
      (hres : resolverWF db.aliases.length resolver = true)
      (type_ref_map : List TypeRef) (hmap : arenaWF type_ref_map = true)
      (stack : List QueryKey) (id : Nat) (inner : Nat),
      type_ref_map.getD id TypeRef.error = TypeRef.array inner →
      Ty.from_hir_with_diagnostics db hdb resolver hres type_ref_map hmap
          stack id
        = (Ty.array (Ty.from_hir_with_diagnostics db hdb resolver hres
            type_ref_map hmap stack inner).1,
           (Ty.from_hir_with_diagnostics db hdb resolver hres type_ref_map
             hmap stack inner).2.1,
           (Ty.from_hir_with_diagnostics db hdb resolver hres type_ref_map
             hmap stack inner).2.2)) := by
  refine ⟨?_, ?_, ?_, ?_⟩ <;>
    intro db hdb resolver hres type_ref_map hmap stack id
  · intro h
    rw [from_hir_char, h]
  · intro h
    rw [from_hir_char, h]
  · intro inner h
    rw [from_hir_char, h]
  · intro inner h
    rw [from_hir_char, h]

/-- Witness for C4: the four non-path variants evaluated in a concrete
arena `[Never, Error, (ref 0), [ref 0]]`. -/
theorem claim_C4_witness :
    Ty.from_hir_with_diagnostics cyclicDb cyclicDb_wf cyclicResolverA
        cyclicResolverA_wf
        [TypeRef.never, TypeRef.error, TypeRef.tuple [0], TypeRef.array 0]
        (by decide) [] 1 = (Ty.unknown, [], []) ∧
    Ty.from_hir_with_diagnostics cyclicDb cyclicDb_wf cyclicResolverA
        cyclicResolverA_wf
        [TypeRef.never, TypeRef.error, TypeRef.tuple [0], TypeRef.array 0]
        (by decide) [] 0 = (Ty.never, [], []) ∧
    Ty.from_hir_with_diagnostics cyclicDb cyclicDb_wf cyclicResolverA
        cyclicResolverA_wf
        [TypeRef.never, TypeRef.error, TypeRef.tuple [0], TypeRef.array 0]
        (by decide) [] 2
      = (Ty.tuple 1 [(Ty.from_hir_with_diagnostics cyclicDb cyclicDb_wf
          cyclicResolverA cyclicResolverA_wf
          [TypeRef.never, TypeRef.error, TypeRef.tuple [0], TypeRef.array 0]
          (by decide) [] 0).1], [], []) ∧
    Ty.from_hir_with_diagnostics cyclicDb cyclicDb_wf cyclicResolverA
        cyclicResolverA_wf
        [TypeRef.never, TypeRef.error, TypeRef.tuple [0], TypeRef.array 0]
        (by decide) [] 3
      = (Ty.array (Ty.from_hir_with_diagnostics cyclicDb cyclicDb_wf
          cyclicResolverA cyclicResolverA_wf
          [TypeRef.never, TypeRef.error, TypeRef.tuple [0], TypeRef.array 0]
          (by decide) [] 0).1, [], []) := by
  have hnever := claim_C4.2.1 cyclicDb cyclicDb_wf cyclicResolverA
    cyclicResolverA_wf
    [TypeRef.never, TypeRef.error, TypeRef.tuple [0], TypeRef.array 0]
    (by decide) [] 0 rfl
  refine ⟨claim_C4.1 cyclicDb cyclicDb_wf cyclicResolverA cyclicResolverA_wf
      _ (by decide) [] 1 rfl,
    hnever, ?_, ?_⟩
  · have := claim_C4.2.2.1 cyclicDb cyclicDb_wf cyclicResolverA
      cyclicResolverA_wf
      [TypeRef.never, TypeRef.error, TypeRef.tuple [0], TypeRef.array 0]
      (by decide) [] 2 [0] rfl
    rw [this]
    simp [hnever]
  · have := claim_C4.2.2.2 cyclicDb cyclicDb_wf cyclicResolverA
      cyclicResolverA_wf
      [TypeRef.never, TypeRef.error, TypeRef.tuple [0], TypeRef.array 0]
      (by decide) [] 3 0 rfl
    rw [this]
    simp [hnever]

/-- C5: a path reference that resolves to an entry not visible from the
enclosing module pushes exactly one `TypeIsPrivate` diagnostic keyed by
the reference's id and still computes and returns the entry's real
declared type (never substituting `Unknown` for a visibility violation);
in particular a private struct yields its real `Struct` type. -/
theorem claim_C5 :
    ∀ (db : Db) (hdb : dbWF db = true) (resolver : Resolver)
      (hres : resolverWF db.aliases.length resolver = true)
      (type_ref_map : List TypeRef) (hmap : arenaWF type_ref_map = true)
      (stack : List QueryKey) (id : Nat) (p : String) (tyns : TypeNs)
      (vis : Visibility) (mo : Nat),
      resolver.resolve_path_as_type_fully p = some (tyns, vis) →
      resolver.module = some mo →
      vis.is_visible_from mo = false →
      ∀ (hd : TypableDefWF db (defOfTypeNs tyns)),
      Ty.from_path db hdb resolver hres stack id p
          = some ((type_for_def_query db hdb stack (defOfTypeNs tyns)
              Namespace.types hd).1,
            [LowerDiagnostic.typeIsPrivate id],
            (type_for_def_query db hdb stack (defOfTypeNs tyns)
              Namespace.types hd).2) ∧
      (∀ s, tyns = TypeNs.structId s →
        (TypableDef.struct s, Namespace.types) ∉ stack →
        type_ref_map.getD id TypeRef.error = TypeRef.path p →
        Ty.from_hir_with_diagnostics db hdb resolver hres type_ref_map hmap
            stack id
          = (Ty.struct s, [LowerDiagnostic.typeIsPrivate id], [])) := by
  intro db hdb resolver hres type_ref_map hmap stack id p tyns vis mo h1 hmod
    hvis hd
  have hfp : Ty.from_path db hdb resolver hres stack id p
      = some ((type_for_def_query db hdb stack (defOfTypeNs tyns)
          Namespace.types hd).1,
        [LowerDiagnostic.typeIsPrivate id],
        (type_for_def_query db hdb stack (defOfTypeNs tyns)
          Namespace.types hd).2) := by
    rw [from_path_resolved db hdb resolver hres stack id p tyns vis h1 hd]
    rw [hmod]
    simp [hvis]
  refine ⟨hfp, ?_⟩
  intro s hseq hs hm2
  subst hseq
  simp only [defOfTypeNs] at hfp
  have hq := tfdq_struct_types db hdb stack s hd hs
  apply from_hir_path_ok db hdb resolver hres type_ref_map hmap stack id p
    (Ty.struct s) [LowerDiagnostic.typeIsPrivate id] [] hm2
  rw [hfp, hq]

/-- Witness for C5: a reference to a struct private to another module
lowers to the real struct type plus exactly one `TypeIsPrivate`
diagnostic. -/
theorem claim_C5_witness :
    Ty.from_hir_with_diagnostics sigDb sigDb_wf
        ⟨[("S", (TypeNs.structId 0, Visibility.inModule 1))], some 0⟩
        (by decide) [TypeRef.path "S"] (by decide) [] 0
      = (Ty.struct 0, [LowerDiagnostic.typeIsPrivate 0], []) :=
  (claim_C5 sigDb sigDb_wf
    ⟨[("S", (TypeNs.structId 0, Visibility.inModule 1))], some 0⟩ (by decide)
    [TypeRef.path "S"] (by decide) [] 0 "S" (TypeNs.structId 0)
    (Visibility.inModule 1) 0 rfl rfl rfl True.intro).2 0 rfl
    (List.not_mem_nil _) rfl

/-- C6: a path reference that the name resolver fails to resolve in the
type namespace yields `none` from path resolution, and the reference
lowers to `Unknown` with exactly one `UnresolvedType` diagnostic keyed by
the reference's local id. -/
theorem claim_C6 :
    ∀ (db : Db) (hdb : dbWF db = true) (resolver : Resolver)
      (hres : resolverWF db.aliases.length resolver = true)
      (type_ref_map : List TypeRef) (hmap : arenaWF type_ref_map = true)
      (stack : List QueryKey) (id : Nat) (p : String),
      resolver.resolve_path_as_type_fully p = none →
      Ty.from_path db hdb resolver hres stack id p = none ∧
      (type_ref_map.getD id TypeRef.error = TypeRef.path p →
        Ty.from_hir_with_diagnostics db hdb resolver hres type_ref_map hmap
            stack id
          = (Ty.unknown, [LowerDiagnostic.unresolvedType id], [])) := by
  intro db hdb resolver hres type_ref_map hmap stack id p h
  exact ⟨from_path_unresolved db hdb resolver hres stack id p h,
    fun h1 => from_hir_path_unresolved db hdb resolver hres type_ref_map hmap
      stack id p h1 h⟩

/-- Witness for C6: a reference naming a nonexistent type yields `Unknown`
plus exactly one `UnresolvedType` diagnostic keyed to that reference. -/
theorem claim_C6_witness :
    Ty.from_path sigDb sigDb_wf ⟨[], none⟩ (by decide) [] 0 "missing"
        = none ∧
    Ty.from_hir_with_diagnostics sigDb sigDb_wf ⟨[], none⟩ (by decide)
        [TypeRef.path "missing"] (by decide) [] 0
      = (Ty.unknown, [LowerDiagnostic.unresolvedType 0], []) :=
  ⟨(claim_C6 sigDb sigDb_wf ⟨[], none⟩ (by decide) [TypeRef.path "missing"]
      (by decide) [] 0 "missing" rfl).1,
   (claim_C6 sigDb sigDb_wf ⟨[], none⟩ (by decide) [TypeRef.path "missing"]
      (by decide) [] 0 "missing" rfl).2 rfl⟩

/-- C7: per-item lowering visits every reference id owned by the item's
arena and records a type for each, and indexing the resulting map never
fails: ids absent from the mapping read as `Unknown`. -/
theorem claim_C7 :
    ∀ (db : Db) (hdb : dbWF db = true) (resolver : Resolver)
      (hres : resolverWF db.aliases.length resolver = true)
      (type_ref_map : List TypeRef) (hmap : arenaWF type_ref_map = true),
      (∀ id, id < type_ref_map.length →
        (id, (Ty.from_hir_with_diagnostics db hdb resolver hres type_ref_map
            hmap [] id).1)
          ∈ (types_from_hir db hdb resolver hres type_ref_map
              hmap).type_ref_to_type ∧
        (types_from_hir db hdb resolver hres type_ref_map hmap).index id
          = (Ty.from_hir_with_diagnostics db hdb resolver hres type_ref_map
              hmap [] id).1) ∧
      (∀ id, type_ref_map.length ≤ id →
        (types_from_hir db hdb resolver hres type_ref_map hmap).index id
          = Ty.unknown) := by
  intro db hdb resolver hres type_ref_map hmap
  constructor
  · intro id h
    constructor
    · rw [types_from_hir_spec]
      exact List.mem_map.mpr ⟨id, List.mem_range.mpr h, rfl⟩
    · exact types_from_hir_index db hdb resolver hres type_ref_map hmap id h
  · intro id h
    exact types_from_hir_index_absent db hdb resolver hres type_ref_map hmap
      id h

/-- Witness for C7: the per-item result of the cyclic alias `A` contains
its only reference's type, and indexing at an absent id reads `Unknown`. -/
theorem claim_C7_witness :
    (0, (Ty.from_hir_with_diagnostics cyclicDb cyclicDb_wf cyclicResolverA
        cyclicResolverA_wf [TypeRef.path "B"] mapB_wf [] 0).1)
      ∈ (types_from_hir cyclicDb cyclicDb_wf cyclicResolverA
          cyclicResolverA_wf [TypeRef.path "B"] mapB_wf).type_ref_to_type ∧
    (types_from_hir cyclicDb cyclicDb_wf cyclicResolverA cyclicResolverA_wf
        [TypeRef.path "B"] mapB_wf).index 5 = Ty.unknown :=
  ⟨((claim_C7 cyclicDb cyclicDb_wf cyclicResolverA cyclicResolverA_wf
      [TypeRef.path "B"] mapB_wf).1 0 (by decide)).1,
   (claim_C7 cyclicDb cyclicDb_wf cyclicResolverA cyclicResolverA_wf
      [TypeRef.path "B"] mapB_wf).2 5 (by decide)⟩

/-- C8: interning is canonical: repeated intern calls with structurally
equal shapes return the same handle, so any two structurally equal type
values are identity-equal; lowering the primitive reference `i32` in two
unrelated items yields identity-equal type handles. -/
theorem claim_C8 :
    (∀ (t : InternTable) (shape : Ty),
      ((t.intern shape).1).intern shape = t.intern shape) ∧
    (∀ (t : InternTable) (s1 s2 : Ty), s1 = s2 →
      t.intern s1 = t.intern s2) ∧
    ((lower_type_alias_query i32Db i32Db_wf 0).index 0 = Ty.int 32 ∧
     (lower_type_alias_query i32Db i32Db_wf 1).index 0 = Ty.int 32 ∧
     ∀ (t : InternTable),
       (t.intern ((lower_type_alias_query i32Db i32Db_wf 0).index 0)).2
         = (t.intern ((lower_type_alias_query i32Db i32Db_wf 1).index 0)).2) := by
  refine ⟨intern_stable, fun t s1 s2 h => by rw [h], ?_, ?_, ?_⟩
  · rw [i32Db_lowering_0 i32Db_wf]
    rfl
  · rw [i32Db_lowering_1 i32Db_wf]
    rfl
  · intro t
    rw [i32Db_lowering_0 i32Db_wf, i32Db_lowering_1 i32Db_wf]

/-- Witness for C8: interning at a concrete table and concrete equal
shapes. -/
theorem claim_C8_witness :
    ((InternTable.mk [Ty.never]).intern (Ty.int 32)).1.intern (Ty.int 32)
        = (InternTable.mk [Ty.never]).intern (Ty.int 32) ∧
    (InternTable.mk [Ty.never]).intern (Ty.int 32)
        = (InternTable.mk [Ty.never]).intern (Ty.int 32) :=
  ⟨claim_C8.1 (InternTable.mk [Ty.never]) (Ty.int 32),
   claim_C8.2.1 (InternTable.mk [Ty.never]) (Ty.int 32) (Ty.int 32) rfl⟩

/-- C9: callable-signature computation produces, for a function, the list
of its lowered parameter types in declaration order plus its lowered
return type (with the function's own resolver), and for a struct used as
a constructor, the lowered field types in field-declaration order with the
struct's own Types-namespace type as the synthesized return type. -/
theorem claim_C9 :
    ∀ (db : Db) (hdb : dbWF db = true),
    (∀ f, (fn_sig_for_fn db hdb f).params.length
        = (db.function_data f).params.length) ∧
    (∀ f (i : Nat) (h1 : i < (fn_sig_for_fn db hdb f).params.length)
       (h2 : i < (db.function_data f).params.length),
       (fn_sig_for_fn db hdb f).params.get ⟨i, h1⟩
         = (Ty.from_hir db hdb (db.function_data f).resolver
             (dbWF_function hdb f).2 (db.function_data f).type_ref_map
             (dbWF_function hdb f).1
             ((db.function_data f).params.get ⟨i, h2⟩)).1) ∧
    (∀ f, (fn_sig_for_fn db hdb f).ret
        = (Ty.from_hir db hdb (db.function_data f).resolver
            (dbWF_function hdb f).2 (db.function_data f).type_ref_map
            (dbWF_function hdb f).1 (db.function_data f).ret_type).1) ∧
    (∀ s, (fn_sig_for_struct_constructor db hdb s).params.length
        = (db.struct_data s).fields.length) ∧
    (∀ s (i : Nat)
       (h1 : i < (fn_sig_for_struct_constructor db hdb s).params.length)
       (h2 : i < (db.struct_data s).fields.length),
       (fn_sig_for_struct_constructor db hdb s).params.get ⟨i, h1⟩
         = (Ty.from_hir db hdb (db.struct_data s).resolver
             (dbWF_struct hdb s).2 (db.struct_data s).type_ref_map
             (dbWF_struct hdb s).1
             ((db.struct_data s).fields.get ⟨i, h2⟩)).1) ∧
    (∀ s, (fn_sig_for_struct_constructor db hdb s).ret
        = type_for_struct db s) ∧
    (∀ f, callable_item_sig db hdb (CallableDef.function f)
        = fn_sig_for_fn db hdb f) ∧
    (∀ s, callable_item_sig db hdb (CallableDef.struct s)
        = fn_sig_for_struct_constructor db hdb s) := by
  intro db hdb
  refine ⟨fun f => by simp [fn_sig_for_fn, FnSig.from_params_and_return],
    ?_,
    fun f => by simp [fn_sig_for_fn, FnSig.from_params_and_return],
    fun s => by simp [fn_sig_for_struct_constructor,
      FnSig.from_params_and_return],
    ?_,
    fun s => by simp [fn_sig_for_struct_constructor,
      FnSig.from_params_and_return],
    fun f => rfl, fun s => rfl⟩
  · intro f i h1 h2
    simp only [fn_sig_for_fn, FnSig.from_params_and_return]
    rw [List.get_map]
  · intro s i h1 h2
    simp only [fn_sig_for_struct_constructor, FnSig.from_params_and_return]
    rw [List.get_map]

/-- Witness for C9: the signature of the example function has one
parameter type (its lowered parameter reference) and the example struct
constructor returns the struct's own type. -/
theorem claim_C9_witness :
    (fn_sig_for_fn sigDb sigDb_wf 0).params.length
        = (sigDb.function_data 0).params.length ∧
    (fn_sig_for_struct_constructor sigDb sigDb_wf 0).ret
        = type_for_struct sigDb 0 ∧
    ∃ (h1 : 0 < (fn_sig_for_fn sigDb sigDb_wf 0).params.length)
      (h2 : 0 < (sigDb.function_data 0).params.length),
      (fn_sig_for_fn sigDb sigDb_wf 0).params.get ⟨0, h1⟩
        = (Ty.from_hir sigDb sigDb_wf (sigDb.function_data 0).resolver
            (dbWF_function sigDb_wf 0).2 (sigDb.function_data 0).type_ref_map
            (dbWF_function sigDb_wf 0).1
            ((sigDb.function_data 0).params.get ⟨0, h2⟩)).1 := by
  have hc := claim_C9 sigDb sigDb_wf
  have h1 : 0 < (fn_sig_for_fn sigDb sigDb_wf 0).params.length := by
    rw [hc.1 0]
    decide
  exact ⟨hc.1 0, hc.2.2.2.2.2.1 0, h1, by decide,
    hc.2.1 0 0 h1 (by decide)⟩

/-- C10: callable-signature computation keeps only the lowered types: the
signature is assembled exclusively from the type components of each
lowering (`Ty::from_hir(...).0`), and the diagnostics produced while
lowering parameter, field and return references appear nowhere in the
result (an `FnSig` has no diagnostics at all).  Concretely, the example
function's parameter reference is unresolved — its lowering produces an
`UnresolvedType` diagnostic — yet its signature is just the type list, and
likewise for the example struct constructor. -/
theorem claim_C10 :
    (∀ (db : Db) (hdb : dbWF db = true) (f : Nat),
      fn_sig_for_fn db hdb f = FnSig.from_params_and_return
        ((db.function_data f).params.map fun tr =>
          (Ty.from_hir db hdb (db.function_data f).resolver
            (dbWF_function hdb f).2 (db.function_data f).type_ref_map
            (dbWF_function hdb f).1 tr).1)
        ((Ty.from_hir db hdb (db.function_data f).resolver
          (dbWF_function hdb f).2 (db.function_data f).type_ref_map
          (dbWF_function hdb f).1 (db.function_data f).ret_type).1)) ∧
    (∀ (db : Db) (hdb : dbWF db = true) (s : Nat),
      fn_sig_for_struct_constructor db hdb s = FnSig.from_params_and_return
        ((db.struct_data s).fields.map fun tr =>
          (Ty.from_hir db hdb (db.struct_data s).resolver
            (dbWF_struct hdb s).2 (db.struct_data s).type_ref_map
            (dbWF_struct hdb s).1 tr).1)
        (type_for_struct db s)) ∧
    ((Ty.from_hir sigDb sigDb_wf (sigDb.function_data 0).resolver
        (dbWF_function sigDb_wf 0).2 (sigDb.function_data 0).type_ref_map
        (dbWF_function sigDb_wf 0).1 0).2
      = [LowerDiagnostic.unresolvedType 0] ∧
     fn_sig_for_fn sigDb sigDb_wf 0 = ⟨[Ty.unknown], Ty.unknown⟩ ∧
     fn_sig_for_struct_constructor sigDb sigDb_wf 0
       = ⟨[Ty.unknown], Ty.struct 0⟩) := by
  have hu : ∀ hres hmap, Ty.from_hir_with_diagnostics sigDb sigDb_wf
      (sigDb.function_data 0).resolver hres
      (sigDb.function_data 0).type_ref_map hmap [] 0
      = (Ty.unknown, [LowerDiagnostic.unresolvedType 0], []) := by
    intro hres hmap
    exact from_hir_path_unresolved sigDb sigDb_wf _ hres _ hmap [] 0 "missing"
      rfl rfl
  have hu2 : ∀ hres hmap, Ty.from_hir_with_diagnostics sigDb sigDb_wf
      (sigDb.struct_data 0).resolver hres
      (sigDb.struct_data 0).type_ref_map hmap [] 0
      = (Ty.unknown, [LowerDiagnostic.unresolvedType 0], []) := by
    intro hres hmap
    exact from_hir_path_unresolved sigDb sigDb_wf _ hres _ hmap [] 0 "missing"
      rfl rfl
  refine ⟨fun db hdb f => rfl, fun db hdb s => rfl, ?_, ?_, ?_⟩
  · simp [Ty.from_hir, hu]
  · simp [fn_sig_for_fn, FnSig.from_params_and_return, Ty.from_hir,
      show (sigDb.function_data 0).params = [0] from rfl,
      show (sigDb.function_data 0).ret_type = 0 from rfl, hu]
  · simp [fn_sig_for_struct_constructor, FnSig.from_params_and_return,
      Ty.from_hir, show (sigDb.struct_data 0).fields = [0] from rfl, hu2,
      type_for_struct]

/-- Witness for C10: the signature equations instantiated at the example
database. -/
theorem claim_C10_witness :
    fn_sig_for_fn sigDb sigDb_wf 0 = FnSig.from_params_and_return
        ((sigDb.function_data 0).params.map fun tr =>
          (Ty.from_hir sigDb sigDb_wf (sigDb.function_data 0).resolver
            (dbWF_function sigDb_wf 0).2 (sigDb.function_data 0).type_ref_map
            (dbWF_function sigDb_wf 0).1 tr).1)
        ((Ty.from_hir sigDb sigDb_wf (sigDb.function_data 0).resolver
          (dbWF_function sigDb_wf 0).2 (sigDb.function_data 0).type_ref_map
          (dbWF_function sigDb_wf 0).1 (sigDb.function_data 0).ret_type).1) ∧
    fn_sig_for_struct_constructor sigDb sigDb_wf 0
      = FnSig.from_params_and_return
        ((sigDb.struct_data 0).fields.map fun tr =>
          (Ty.from_hir sigDb sigDb_wf (sigDb.struct_data 0).resolver
            (dbWF_struct sigDb_wf 0).2 (sigDb.struct_data 0).type_ref_map
            (dbWF_struct sigDb_wf 0).1 tr).1)
        (type_for_struct sigDb 0) :=
  ⟨claim_C10.1 sigDb sigDb_wf 0, claim_C10.2.1 sigDb sigDb_wf 0⟩
